import Mathlib

/-!
The feed scheduling and ingestion engine of gator.

A shallow embedding of `main.go` of `JohnDirewolf/gator`: `convertToNullTime`,
`scrapeFeeds`, `handlerAgg`, `commands.run` and the tail of `main`.

The engine talks to the outside world through the generated `database`
package, `fetchFeed`, `uuid.New`, `time.Now` and a handful of standard-library
functions.  Those are collected in the structure `Env`; the world they act on
is an arbitrary state type `σ` that is threaded through every call.  Each
function of the engine returns, besides its Go result, the world it leaves
behind and the list of outside calls it made, in the order it made them.
-/

set_option autoImplicit false

namespace Gator

/-! ## Go error values -/

/-- A Go `error` value that is not nil.  Every constructor is a pointer type in
Go, so each value carries the address of the object it points to.
`errorString` is `*errors.errorString` (made by `errors.New`, and by
`fmt.Errorf` when the format has no `%w`), `wrapError` is `*fmt.wrapError`
(made by `fmt.Errorf` with `%w`; it has an `Unwrap` method), `pqError` is the
storage driver's `*pq.Error` with its SQLSTATE code.  None of the three types has an `Is`
method. -/
inductive GoError where
  | errorString (addr : Nat) (s : String)
  | wrapError (addr : Nat) (msg : String) (err : GoError)
  | pqError (addr : Nat) (Code : String) (Message : String)
deriving DecidableEq, Repr

/-- Address of the object an error value points to. -/
def GoError.addr : GoError → Nat
  | .errorString a _ => a
  | .wrapError a _ _ => a
  | .pqError a _ _ => a

/-- The `Error()` method. -/
def GoError.Error : GoError → String
  | .errorString _ s => s
  | .wrapError _ msg _ => msg
  | .pqError _ _ m => "pq: " ++ m

/-- Largest address of an object reachable from an error value. -/
def GoError.maxAddr : GoError → Nat
  | .errorString a _ => a
  | .wrapError a _ e => max a e.maxAddr
  | .pqError a _ _ => a

/-- An address that no object reachable from the live error values has. -/
def freshAddr (live : List GoError) : Nat :=
  (live.map GoError.maxAddr).foldr max 0 + 1

/-- `errors.New(text)`: allocates a new `*errors.errorString`.  A new object
has an address different from every object that is live at the call. -/
def errors.New (live : List GoError) (text : String) : GoError :=
  .errorString (freshAddr live) text

/-- `fmt.Errorf(text + "%w", err)`: a new `*fmt.wrapError` around `err`. -/
def fmt.ErrorfW (text : String) (err : GoError) : GoError :=
  .wrapError (freshAddr [err]) (text ++ err.Error) err

/-- `errors.Is(err, target)` for non-nil arguments: walks the `Unwrap` chain
of `err` and compares each link with `target` by `==`, which for pointer
types is equality of addresses. -/
def errors.Is : GoError → GoError → Bool
  | .wrapError a _ inner, target => a == target.addr || errors.Is inner target
  | e, target => e.addr == target.addr

/-! ## Data -/

/-- The type `uuid.UUID`, an opaque identity. -/
abbrev uuid.UUID := Nat

/-- The type `time.Time`, read as an instant: seconds since the Unix epoch
and nanoseconds within the second. -/
structure time.Time where
  sec : Int
  nsec : Nat
deriving DecidableEq, Repr

/-- The zero value `time.Time{}`: January 1, year 1, 00:00:00 UTC. -/
def time.Time.zero : time.Time := ⟨-62135596800, 0⟩

/-- The type `sql.NullTime`. -/
structure sql.NullTime where
  Time : time.Time
  Valid : Bool
deriving DecidableEq, Repr

/-- Modelled from the spec: the row type `database.Feed`, declared in a
generated file that is missing here; feeds(id, name, url, user_id,
last_fetched_at) with the timestamps every table of the repository carries. -/
structure database.Feed where
  ID : uuid.UUID
  CreatedAt : time.Time
  UpdatedAt : time.Time
  Name : String
  Url : String
  UserID : uuid.UUID
  LastFetchedAt : sql.NullTime
deriving DecidableEq, Repr

/-- The argument of `CreatePost`, with the fields `scrapeFeeds` fills in. -/
structure database.CreatePostParams where
  ID : uuid.UUID
  CreatedAt : time.Time
  UpdatedAt : time.Time
  Title : String
  Url : String
  Description : String
  PublishedAt : sql.NullTime
  FeedID : uuid.UUID
deriving DecidableEq, Repr

/-- Modelled from the spec: an item of a fetched document; the declaration is
in a file that is missing here (title, link, description, pubDate). -/
structure RSSItem where
  Title : String
  Link : String
  Description : String
  PubDate : String
deriving DecidableEq, Repr

/-- Modelled from the spec: the channel of a fetched document (title, link,
description, items in document order). -/
structure RSSChannel where
  Title : String
  Link : String
  Description : String
  Item : List RSSItem
deriving DecidableEq, Repr

/-- Modelled from the spec: the document `fetchFeed` returns. -/
structure RSSFeed where
  Channel : RSSChannel
deriving DecidableEq, Repr

/-! ## The outside world -/

/-- What the engine calls.  The three `database` queries, `fetchFeed`,
`uuid.New` and `time.Now` act on the world; `html.UnescapeString`,
`time.Parse` and `time.ParseDuration` are pure.  The program only tests the
error of `time.Parse` against nil, so `timeParse` returns an option. -/
structure Env (σ : Type) where
  GetNextFeedToFetch : σ → Except GoError database.Feed × σ
  MarkFeedFetched : σ → uuid.UUID → Option GoError × σ
  CreatePost : σ → database.CreatePostParams → Option GoError × σ
  fetchFeed : σ → String → Except GoError RSSFeed × σ
  uuidNew : σ → uuid.UUID × σ
  timeNow : σ → time.Time × σ
  UnescapeString : String → String
  timeParse : String → String → Option time.Time
  ParseDuration : String → Except GoError Int

/-- An outside call, as it appears in the record of a run. -/
inductive Call where
  | GetNextFeedToFetch
  | MarkFeedFetched (id : uuid.UUID)
  | Println (text : String)
  | fetchFeed (url : String)
  | CreatePost (arg : database.CreatePostParams)
deriving DecidableEq, Repr

/-- What one call of `scrapeFeeds` leaves behind: the error it returns
(`none` is nil), the world, and the calls it made in order. -/
structure Cycle (σ : Type) where
  err : Option GoError
  state : σ
  calls : List Call

/-! ## convertToNullTime and scrapeFeeds -/

/-- The layout constant of `convertToNullTime`. -/
def layout : String := "2006-01-02T15:04:05Z07:00"

/-- The function `convertToNullTime`. -/
def convertToNullTime (timeParse : String → String → Option time.Time)
    (dateString : String) : sql.NullTime :=
  if dateString = "" then
    { Time := time.Time.zero, Valid := false }
  else
    match timeParse layout dateString with
    | none => { Time := time.Time.zero, Valid := false }
    | some parsedTime => { Time := parsedTime, Valid := true }

/-- The value `createPostArgs` that the loop of `scrapeFeeds` builds for one
item in world `s`: `uuid.New()`, then `time.Now()` twice, in that order. -/
def createPostArgs {σ : Type} (env : Env σ) (feedID : uuid.UUID) (link : String)
    (item : RSSItem) (s : σ) : database.CreatePostParams :=
  { ID := (env.uuidNew s).1
    CreatedAt := (env.timeNow (env.uuidNew s).2).1
    UpdatedAt := (env.timeNow (env.timeNow (env.uuidNew s).2).2).1
    Title := env.UnescapeString item.Title
    Url := link
    Description := env.UnescapeString item.Description
    PublishedAt := convertToNullTime env.timeParse item.PubDate
    FeedID := feedID }

/-- World in which `CreatePost` is called for an item taken up in world `s`. -/
def beforeCreatePost {σ : Type} (env : Env σ) (s : σ) : σ :=
  (env.timeNow (env.timeNow (env.uuidNew s).2).2).2

/-- The `for` loop of `scrapeFeeds` over `feed.Channel.Item`, from the item
it is about to take up. -/
def scrapeFeedsLoop {σ : Type} (env : Env σ) (feedID : uuid.UUID) (link : String) :
    List RSSItem → σ → Cycle σ
  | [], s => { err := none, state := s, calls := [] }
  | item :: rest, s =>
    let arg := createPostArgs env feedID link item s
    let r := env.CreatePost (beforeCreatePost env s) arg
    match r.1 with
    | some err =>
      if errors.Is err (errors.New [err] "unique constraint violation") then
        { err := none, state := r.2, calls := [Call.CreatePost arg] }
      else
        { err := some (fmt.ErrorfW "Failed to insert post: " err), state := r.2,
          calls := [Call.CreatePost arg] }
    | none =>
      let c := scrapeFeedsLoop env feedID link rest r.2
      { c with calls := Call.CreatePost arg :: c.calls }

/-- The function `scrapeFeeds`: one fetch cycle. -/
def scrapeFeeds {σ : Type} (env : Env σ) (s : σ) : Cycle σ :=
  let g := env.GetNextFeedToFetch s
  match g.1 with
  | .error err =>
    { err := some (errors.New [err] ("Error getting next feed to fetch: " ++ err.Error)),
      state := g.2, calls := [Call.GetNextFeedToFetch] }
  | .ok feedToFetch =>
    let m := env.MarkFeedFetched g.2 feedToFetch.ID
    match m.1 with
    | some err =>
      { err := some (errors.New [err] ("Error marking feed as fetched: " ++ err.Error)),
        state := m.2,
        calls := [Call.GetNextFeedToFetch, Call.MarkFeedFetched feedToFetch.ID] }
    | none =>
      let f := env.fetchFeed m.2 feedToFetch.Url
      match f.1 with
      | .error err =>
        { err := some err, state := f.2,
          calls := [Call.GetNextFeedToFetch, Call.MarkFeedFetched feedToFetch.ID,
            Call.Println "Fetching Feeds", Call.fetchFeed feedToFetch.Url] }
      | .ok feed =>
        let c := scrapeFeedsLoop env feedToFetch.ID feed.Channel.Link feed.Channel.Item f.2
        { c with calls := [Call.GetNextFeedToFetch, Call.MarkFeedFetched feedToFetch.ID,
            Call.Println "Fetching Feeds", Call.fetchFeed feedToFetch.Url] ++ c.calls }

/-! ## handlerAgg, commands.run and main -/

/-- The type `command`. -/
structure command where
  name : String
  args : List String
deriving DecidableEq, Repr

/-- The polling loop of `handlerAgg` observed after a number of ticks: the
world, the results of the cycles run so far (each one discarded by the loop)
and the calls made so far. -/
structure Polling (σ : Type) where
  state : σ
  results : List (Option GoError)
  calls : List Call

/-- How a handler is found after a given number of ticks: it has returned, it
has panicked, or it is still inside its polling loop. -/
inductive Outcome (σ : Type) where
  | returned (err : Option GoError) (state : σ) (calls : List Call)
  | panicked (msg : String) (state : σ) (calls : List Call)
  | looping (p : Polling σ)

/-- The loop `for ; ; <-ticker.C { scrapeFeeds(s) }` once `ticks` ticks have
been received: the body runs first, and once more after every receive. -/
def pollingLoop {σ : Type} (env : Env σ) : Nat → σ → Polling σ
  | 0, s =>
    let c := scrapeFeeds env s
    { state := c.state, results := [c.err], calls := c.calls }
  | ticks + 1, s =>
    let c := scrapeFeeds env s
    let p := pollingLoop env ticks c.state
    { state := p.state, results := c.err :: p.results, calls := c.calls ++ p.calls }

/-- The function `handlerAgg`, observed after `ticks` ticks.
`time.NewTicker` panics on a duration that is not positive. -/
def handlerAgg {σ : Type} (env : Env σ) (ticks : Nat) (s : σ) (cmd : command) : Outcome σ :=
  match cmd.args with
  | [] =>
    .returned (some (errors.New []
      "Missing time span between fetches, Proper usage: agg <time span>")) s []
  | arg0 :: _ =>
    match env.ParseDuration arg0 with
    | .error err =>
      .returned (some (errors.New [err] ("Unknown duration format: " ++ err.Error))) s []
    | .ok timeBetweenRequests =>
      if timeBetweenRequests ≤ 0 then
        .panicked "non-positive interval for NewTicker" s []
      else
        .looping (pollingLoop env ticks s)

/-- The type `commands`: the map from names to handlers, as the list of its
registrations, latest first. -/
structure commands (σ : Type) where
  commandNameHandler : List (String × (σ → command → Outcome σ))

/-- The method `commands.register`. -/
def commands.register {σ : Type} (c : commands σ) (name : String)
    (f : σ → command → Outcome σ) : commands σ :=
  { commandNameHandler := (name, f) :: c.commandNameHandler }

/-- The method `commands.run`. -/
def commands.run {σ : Type} (c : commands σ) (s : σ) (cmd : command) : Outcome σ :=
  match c.commandNameHandler.find? (fun e => e.1 == cmd.name) with
  | some e => e.2 s cmd
  | none => .returned (some (errors.New [] "Command not found. Have you RTFM?")) s []

/-- How the process is found after a given number of ticks: it has exited
with a status, it has died of a panic, or it is still polling. -/
inductive Process (σ : Type) where
  | exited (code : Nat) (state : σ) (calls : List Call)
  | crashed (msg : String) (state : σ) (calls : List Call)
  | running (p : Polling σ)

/-- The ten handlers of the command router besides `handlerAgg`, each as it is
registered (the logged-in ones already wrapped by `middlewareLoggedIn`). -/
structure Handlers (σ : Type) where
  handlerLogin : σ → command → Outcome σ
  handlerRegister : σ → command → Outcome σ
  handlerReset : σ → command → Outcome σ
  handlerListUsers : σ → command → Outcome σ
  handlerCreateFeeds : σ → command → Outcome σ
  handlerFeeds : σ → command → Outcome σ
  handlerFollow : σ → command → Outcome σ
  handlerFollowing : σ → command → Outcome σ
  handlerUnfollow : σ → command → Outcome σ
  handlerBrowse : σ → command → Outcome σ

/-- The command table `main` builds. -/
def curCommands {σ : Type} (env : Env σ) (h : Handlers σ) (ticks : Nat) : commands σ :=
  ((((((((((({ commandNameHandler := [] } : commands σ).register
    "login" h.handlerLogin).register
    "register" h.handlerRegister).register
    "reset" h.handlerReset).register
    "users" h.handlerListUsers).register
    "agg" (handlerAgg env ticks)).register
    "addfeed" h.handlerCreateFeeds).register
    "feeds" h.handlerFeeds).register
    "follow" h.handlerFollow).register
    "following" h.handlerFollowing).register
    "unfollow" h.handlerUnfollow).register
    "browse" h.handlerBrowse

/-- The function `main`, given the results of `config.Read` and `sql.Open`
(`none` is a nil error) and the command line `os.Args`. -/
def main {σ : Type} (env : Env σ) (h : Handlers σ) (configRead sqlOpen : Option GoError)
    (osArgs : List String) (ticks : Nat) (s : σ) : Process σ :=
  match configRead with
  | some _ => .exited 1 s []
  | none =>
    match sqlOpen with
    | some _ => .exited 1 s []
    | none =>
      match osArgs with
      | _ :: name :: args =>
        match (curCommands env h ticks).run s { name := name, args := args } with
        | .returned (some _) s1 calls => .exited 1 s1 calls
        | .returned none s1 calls => .exited 0 s1 calls
        | .panicked msg s1 calls => .crashed msg s1 calls
        | .looping p => .running p
      | _ => .exited 1 s []

/-! ## Models of the standard-library functions

`Env` leaves `time.Parse`, `time.ParseDuration` and `html.UnescapeString`
open, and the general theorems hold for whatever they compute.  The models
below follow the Go standard library and serve to run the program on
concrete command lines and documents. -/

/-- The helper `isDigit` of package `time`, on one character. -/
def time.isDigit (c : Char) : Bool :=
  decide ('0' ≤ c) && decide (c ≤ '9')

/-- Value of a decimal digit. -/
def time.digit (c : Char) : Nat :=
  c.toNat - '0'.toNat

/-- The helper `getnum` of package `time`: one or two digits, two when
`fixed`. -/
def time.getnum (value : List Char) (fixed : Bool) : Option (Nat × List Char) :=
  match value with
  | [] => none
  | c0 :: rest =>
    if !time.isDigit c0 then none
    else
      match rest with
      | [] => if fixed then none else some (time.digit c0, rest)
      | c1 :: rest1 =>
        if !time.isDigit c1 then
          if fixed then none else some (time.digit c0, rest)
        else some (time.digit c0 * 10 + time.digit c1, rest1)

/-- The helper `skip` of package `time` for a one-character literal of the
layout that is not a space. -/
def time.skip (value : List Char) (lit : Char) : Option (List Char) :=
  match value with
  | [] => none
  | c :: rest => if c = lit then some rest else none

/-- The helper `isLeap` of package `time`. -/
def time.isLeap (year : Nat) : Bool :=
  year % 4 == 0 && (year % 100 != 0 || year % 400 == 0)

/-- The table `daysBefore` of package `time`: days of a non-leap year before
the end of month `m`. -/
def time.daysBefore (m : Nat) : Nat :=
  [0, 31, 59, 90, 120, 151, 181, 212, 243, 273, 304, 334, 365].getD m 0

/-- The helper `daysIn` of package `time`. -/
def time.daysIn (m year : Nat) : Nat :=
  if m = 2 ∧ time.isLeap year = true then 29
  else time.daysBefore m - time.daysBefore (m - 1)

/-- `time.Date` on fields that are in range, for the zone `offset` seconds
east of UTC, as an instant. -/
def time.Date (year month day hour min sec nsec : Nat) (offset : Int) : time.Time :=
  let y : Int := (year : Int) - 1
  let days : Int := 365 * y + y / 4 - y / 100 + y / 400 - 719162
    + time.daysBefore (month - 1)
    + (if time.isLeap year = true ∧ 3 ≤ month then 1 else 0) + ((day : Int) - 1)
  { sec := days * 86400 + hour * 3600 + min * 60 + sec - offset, nsec := nsec }

/-- Decimal value of a list of digits. -/
def time.decimal (ds : List Char) : Nat :=
  ds.foldl (fun x c => x * 10 + time.digit c) 0

/-- The year of the layout element `2006`: exactly four digits. -/
def time.parseYear (value : List Char) : Option (Nat × List Char) :=
  match value with
  | y0 :: y1 :: y2 :: y3 :: rest =>
    if time.isDigit y0 && time.isDigit y1 && time.isDigit y2 && time.isDigit y3 then
      some (time.decimal [y0, y1, y2, y3], rest)
    else none
  | _ => none

/-- The fractional second `time.Parse` accepts after the seconds although the
layout has none: a period or comma and at least one digit; the first nine
digits count (`parseNanoseconds`). -/
def time.parseFraction (value : List Char) : Nat × List Char :=
  match value with
  | sep :: d :: rest =>
    if (sep = '.' ∨ sep = ',') ∧ time.isDigit d = true then
      let ds := (d :: rest).takeWhile time.isDigit
      (time.decimal (ds.take 9) * 10 ^ (9 - (ds.take 9).length),
        (d :: rest).dropWhile time.isDigit)
    else (0, value)
  | _ => (0, value)

/-- The layout element `Z07:00`: `Z`, or a sign, two digits, a colon and two
digits; offsets of more than 24 hours or 60 minutes are out of range. -/
def time.parseZone (value : List Char) : Option (Int × List Char) :=
  match value with
  | 'Z' :: rest => some (0, rest)
  | sign :: h0 :: h1 :: colon :: m0 :: m1 :: rest =>
    if colon ≠ ':' then none
    else
      match time.getnum [h0, h1] true, time.getnum [m0, m1] true with
      | some (hr, _), some (mm, _) =>
        if 24 < hr ∨ 60 < mm then none
        else if sign = '+' then some ((((hr * 60 + mm) * 60 : Nat) : Int), rest)
        else if sign = '-' then some (-(((hr * 60 + mm) * 60 : Nat) : Int), rest)
        else none
      | _, _ => none
  | _ => none

/-- `time.Parse` for the layout `2006-01-02T15:04:05Z07:00`, element by
element: year, month, day, hour (one or two digits), minute, second with an
optional fraction, zone; then no text may be left and the day must exist in
its month. -/
def time.parseLayout (value : List Char) : Option time.Time := do
  let (year, value) ← time.parseYear value
  let value ← time.skip value '-'
  let (month, value) ← time.getnum value true
  if month = 0 ∨ 12 < month then none
  let value ← time.skip value '-'
  let (day, value) ← time.getnum value true
  let value ← time.skip value 'T'
  let (hour, value) ← time.getnum value false
  if 24 ≤ hour then none
  let value ← time.skip value ':'
  let (min, value) ← time.getnum value true
  if 60 ≤ min then none
  let value ← time.skip value ':'
  let (sec, value) ← time.getnum value true
  if 60 ≤ sec then none
  let (nsec, value) := time.parseFraction value
  let (offset, value) ← time.parseZone value
  if value ≠ [] then none
  if day < 1 ∨ time.daysIn month year < day then none
  some (time.Date year month day hour min sec nsec offset)

/-- Model of `time.Parse`.  Only the layout the program uses is modelled;
any other layout is answered with a failure. -/
def time.Parse (layout value : String) : Option time.Time :=
  if layout = "2006-01-02T15:04:05Z07:00" then time.parseLayout value.data else none

/-- The helper `leadingInt` of package `time`, with the value read so far. -/
def time.leadingInt : List Char → Nat → Option (Nat × List Char)
  | [], x => some (x, [])
  | c :: rest, x =>
    if !time.isDigit c then some (x, c :: rest)
    else if 2 ^ 63 / 10 < x then none
    else if 2 ^ 63 < x * 10 + time.digit c then none
    else time.leadingInt rest (x * 10 + time.digit c)

/-- The helper `leadingFraction` of package `time`, with the value and scale
read so far and the overflow flag: digits after an overflow are skipped. -/
def time.leadingFraction : List Char → Nat → Nat → Bool → Nat × Nat × List Char
  | [], x, scale, _ => (x, scale, [])
  | c :: rest, x, scale, overflow =>
    if !time.isDigit c then (x, scale, c :: rest)
    else if overflow then time.leadingFraction rest x scale true
    else if (2 ^ 63 - 1) / 10 < x then time.leadingFraction rest x scale true
    else if 2 ^ 63 < x * 10 + time.digit c then time.leadingFraction rest x scale true
    else time.leadingFraction rest (x * 10 + time.digit c) (scale * 10) false

/-- The table `unitMap` of package `time`, in nanoseconds. -/
def time.unitMap (u : String) : Option Nat :=
  if u = "ns" then some 1
  else if u = "us" then some 1000
  else if u = "µs" then some 1000
  else if u = "μs" then some 1000
  else if u = "ms" then some 1000000
  else if u = "s" then some 1000000000
  else if u = "m" then some 60000000000
  else if u = "h" then some 3600000000000
  else none

/-- UTF-8 bytes of a character. -/
def time.utf8 (c : Char) : List Nat :=
  let n := c.toNat
  if n < 0x80 then [n]
  else if n < 0x800 then [0xC0 + n / 64, 0x80 + n % 64]
  else if n < 0x10000 then [0xE0 + n / 4096, 0x80 + n / 64 % 64, 0x80 + n % 64]
  else [0xF0 + n / 262144, 0x80 + n / 4096 % 64, 0x80 + n / 64 % 64, 0x80 + n % 64]

/-- A hexadecimal digit in lower case. -/
def time.lowerhex (n : Nat) : Char :=
  "0123456789abcdef".data.getD n '0'

/-- The helper `quote` of package `time`. -/
def time.quote (s : String) : String :=
  String.mk ('"' :: s.data.flatMap (fun c =>
    if 0x80 ≤ c.toNat ∨ c.toNat < 0x20 then
      (time.utf8 c).flatMap (fun b => ['\\', 'x', time.lowerhex (b / 16), time.lowerhex (b % 16)])
    else if c = '"' ∨ c = '\\' then ['\\', c]
    else [c]) ++ ['"'])

/-- The error `errors.New("time: invalid duration " + quote(orig))`. -/
def time.invalidDuration (orig : String) : GoError :=
  errors.New [] ("time: invalid duration " ++ time.quote orig)

/-- The loop of `time.ParseDuration` over the segments of number and unit,
with the total `d` so far.  `frac f unit scale` stands for the float64
expression `uint64(float64(f) * (float64(unit) / scale))`.  Every round
consumes at least one character, so `rounds` = the length of the text is
enough; the sums are taken in `uint64`. -/
def time.parseSegments (frac : Nat → Nat → Nat → Nat) (orig : String) :
    Nat → List Char → Nat → Except GoError Nat
  | _, [], d => .ok d
  | 0, _ :: _, _ => .error (time.invalidDuration orig)
  | rounds + 1, c :: s, d =>
    if !(c = '.' ∨ time.isDigit c = true) then .error (time.invalidDuration orig)
    else
      match time.leadingInt (c :: s) 0 with
      | none => .error (time.invalidDuration orig)
      | some (v, s1) =>
        let pre := (c :: s).length != s1.length
        let fr : Nat × Nat × List Char :=
          match s1 with
          | '.' :: s2 => time.leadingFraction s2 0 1 false
          | _ => (0, 1, s1)
        let post :=
          match s1 with
          | '.' :: s2 => s2.length != fr.2.2.length
          | _ => false
        if !pre && !post then .error (time.invalidDuration orig)
        else
          let u := fr.2.2.takeWhile (fun c => !(c = '.' ∨ time.isDigit c = true))
          let s3 := fr.2.2.dropWhile (fun c => !(c = '.' ∨ time.isDigit c = true))
          if u = [] then
            .error (errors.New [] ("time: missing unit in duration " ++ time.quote orig))
          else
            match time.unitMap (String.mk u) with
            | none =>
              .error (errors.New [] ("time: unknown unit " ++ time.quote (String.mk u)
                ++ " in duration " ++ time.quote orig))
            | some unit =>
              if 2 ^ 63 / unit < v then .error (time.invalidDuration orig)
              else
                let v1 := if 0 < fr.1 then (v * unit + frac fr.1 unit fr.2.1) % 2 ^ 64
                  else v * unit
                if 0 < fr.1 ∧ 2 ^ 63 < v1 then .error (time.invalidDuration orig)
                else if 2 ^ 63 < (d + v1) % 2 ^ 64 then .error (time.invalidDuration orig)
                else time.parseSegments frac orig rounds s3 ((d + v1) % 2 ^ 64)

/-- Model of `time.ParseDuration`: an optional sign, the special case `0`,
then the segments; the result is in nanoseconds. -/
def time.ParseDuration (frac : Nat → Nat → Nat → Nat) (orig : String) : Except GoError Int :=
  let neg := orig.data.head? = some '-'
  let s := match orig.data with
    | c :: rest => if c = '-' ∨ c = '+' then rest else c :: rest
    | [] => []
  if s = ['0'] then .ok 0
  else if s = [] then .error (time.invalidDuration orig)
  else
    match time.parseSegments frac orig s.length s 0 with
    | .error err => .error err
    | .ok d =>
      if neg then .ok (-(d : Int))
      else if 2 ^ 63 - 1 < d then .error (time.invalidDuration orig)
      else .ok (d : Int)

/-! ## A storage for the Storage Port -/

/-- Modelled from the spec: the persisted state behind the queries of the
generated `database` package, which is missing here: the feeds with their
`last_fetched_at`, the posts, the clock that `NOW()` and `time.Now` read, the
source of fresh identities, and the number of fetches made so far. -/
structure Store where
  feeds : List database.Feed
  posts : List database.CreatePostParams
  clock : Nat
  uuids : Nat
  fetches : Nat
deriving DecidableEq, Repr

/-- Modelled from the spec: the order in which feeds are due, "the oldest
`last_fetched_at` (nulls sort first), breaking ties by feed identity". -/
def dueBefore (f g : database.Feed) : Prop :=
  (f.LastFetchedAt.Valid = false ∧ g.LastFetchedAt.Valid = false ∧ f.ID ≤ g.ID) ∨
  (f.LastFetchedAt.Valid = false ∧ g.LastFetchedAt.Valid = true) ∨
  (f.LastFetchedAt.Valid = true ∧ g.LastFetchedAt.Valid = true ∧
    (f.LastFetchedAt.Time.sec < g.LastFetchedAt.Time.sec ∨
      (f.LastFetchedAt.Time.sec = g.LastFetchedAt.Time.sec ∧
        (f.LastFetchedAt.Time.nsec < g.LastFetchedAt.Time.nsec ∨
          (f.LastFetchedAt.Time.nsec = g.LastFetchedAt.Time.nsec ∧ f.ID ≤ g.ID)))))

instance (f g : database.Feed) : Decidable (dueBefore f g) := by
  unfold dueBefore; infer_instance

/-- Modelled from the spec: the feed that is due first among the rows. -/
def firstDue : List database.Feed → Option database.Feed
  | [] => none
  | f :: rest =>
    match firstDue rest with
    | none => some f
    | some g => if dueBefore f g then some f else some g

/-- The sentinel `sql.ErrNoRows`. -/
def sql.ErrNoRows : GoError := .errorString 0 "sql: no rows in result set"

/-- Modelled from the spec: the driver's error for a violation of
UNIQUE(feed_id, url), SQLSTATE 23505. -/
def uniqueViolation : GoError :=
  .pqError 1 "23505" "duplicate key value violates unique constraint"

/-- Modelled from the spec: "next feed to fetch", which fails if no feeds
exist. -/
def Store.GetNextFeedToFetch (s : Store) : Except GoError database.Feed × Store :=
  match firstDue s.feeds with
  | none => (.error sql.ErrNoRows, s)
  | some f => (.ok f, s)

/-- Modelled from the spec: a feed row after "mark fetched" for the identity
`id` at the time `now`: the row with that identity gets `last_fetched_at =
now`, every other row is left as it is. -/
def markedFetched (id : uuid.UUID) (now : time.Time) (f : database.Feed) : database.Feed :=
  if f.ID = id then { f with LastFetchedAt := { Time := now, Valid := true } } else f

/-- Modelled from the spec: "mark fetched" sets the `last_fetched_at` of the
feed with the given identity to now. -/
def Store.MarkFeedFetched (s : Store) (id : uuid.UUID) : Option GoError × Store :=
  (none,
    { s with
      feeds := s.feeds.map (markedFetched id ⟨s.clock, 0⟩)
      clock := s.clock + 1 })

/-- Modelled from the spec: the insertion of a post under UNIQUE(feed_id,
url): a post whose feed and URL are already recorded is refused with the
driver's unique-violation error, any other post is appended. -/
def Store.CreatePost (s : Store) (p : database.CreatePostParams) : Option GoError × Store :=
  if s.posts.any (fun q => decide (q.FeedID = p.FeedID ∧ q.Url = p.Url)) then
    (some uniqueViolation, s)
  else (none, { s with posts := s.posts ++ [p] })

/-- Modelled from the spec: the world of the engine over a `Store`.  `web n
url` is what the `n`-th fetch of the run finds at `url`; `unescape` is
`html.UnescapeString` and `frac` the float64 expression of
`time.ParseDuration`, both left open. -/
def specEnv (unescape : String → String) (frac : Nat → Nat → Nat → Nat)
    (web : Nat → String → Except GoError RSSFeed) : Env Store where
  GetNextFeedToFetch := Store.GetNextFeedToFetch
  MarkFeedFetched := Store.MarkFeedFetched
  CreatePost := Store.CreatePost
  fetchFeed := fun s url => (web s.fetches url, { s with fetches := s.fetches + 1 })
  uuidNew := fun s => (s.uuids, { s with uuids := s.uuids + 1 })
  timeNow := fun s => (⟨s.clock, 0⟩, { s with clock := s.clock + 1 })
  UnescapeString := unescape
  timeParse := time.Parse
  ParseDuration := time.ParseDuration frac

/-- The identities of the feeds a run selected: the arguments of its
`MarkFeedFetched` calls, in order. -/
def selectedFeeds : List Call → List uuid.UUID
  | [] => []
  | Call.MarkFeedFetched id :: rest => id :: selectedFeeds rest
  | _ :: rest => selectedFeeds rest

/-- The arguments of the `CreatePost` calls of a run, in order. -/
def createPostCalls : List Call → List database.CreatePostParams
  | [] => []
  | Call.CreatePost arg :: rest => arg :: createPostCalls rest
  | _ :: rest => createPostCalls rest

/-- The feeds that have never been fetched. -/
def neverFetched (l : List database.Feed) : List database.Feed :=
  l.filter (fun f => !f.LastFetchedAt.Valid)

/-- Modelled from the spec: what the Storage Port, whose queries are in the
missing generated package, promises about feed selection, seen through the
feed rows `feedsOf` of a world: `GetNextFeedToFetch` returns the row that is
due first, `MarkFeedFetched` succeeds and sets the `last_fetched_at` of the
feed with the given identity to a time, and none of the other calls of a
cycle changes the feed rows. -/
structure OldestFirst {σ : Type} (env : Env σ) (feedsOf : σ → List database.Feed) : Prop where
  next_due : ∀ s, feedsOf s ≠ [] →
    ∃ f, (env.GetNextFeedToFetch s).1 = .ok f ∧ f ∈ feedsOf s ∧
      ∀ g ∈ feedsOf s, dueBefore f g
  next_keeps : ∀ s, feedsOf (env.GetNextFeedToFetch s).2 = feedsOf s
  mark_ok : ∀ s id, (env.MarkFeedFetched s id).1 = none
  mark_sets : ∀ s id, ∃ now, feedsOf (env.MarkFeedFetched s id).2 =
    (feedsOf s).map (markedFetched id now)
  fetch_keeps : ∀ s url, feedsOf (env.fetchFeed s url).2 = feedsOf s
  uuid_keeps : ∀ s, feedsOf (env.uuidNew s).2 = feedsOf s
  now_keeps : ∀ s, feedsOf (env.timeNow s).2 = feedsOf s
  create_keeps : ∀ s p, feedsOf (env.CreatePost s p).2 = feedsOf s

/-! ## The record of the loop, told independently of its control flow -/

/-- World left by calling `CreatePost` for each of the items in turn, every
item taken up in the world the previous call left. -/
def afterPosts {σ : Type} (env : Env σ) (feedID : uuid.UUID) (link : String) :
    List RSSItem → σ → σ
  | [], s => s
  | item :: rest, s =>
    afterPosts env feedID link rest
      (env.CreatePost (beforeCreatePost env s) (createPostArgs env feedID link item s)).2

/-- Arguments of those `CreatePost` calls, in order. -/
def postArgs {σ : Type} (env : Env σ) (feedID : uuid.UUID) (link : String) :
    List RSSItem → σ → List database.CreatePostParams
  | [], _ => []
  | item :: rest, s =>
    createPostArgs env feedID link item s ::
      postArgs env feedID link rest
        (env.CreatePost (beforeCreatePost env s) (createPostArgs env feedID link item s)).2

/-- Results of those `CreatePost` calls, in order. -/
def postResults {σ : Type} (env : Env σ) (feedID : uuid.UUID) (link : String) :
    List RSSItem → σ → List (Option GoError)
  | [], _ => []
  | item :: rest, s =>
    (env.CreatePost (beforeCreatePost env s) (createPostArgs env feedID link item s)).1 ::
      postResults env feedID link rest
        (env.CreatePost (beforeCreatePost env s) (createPostArgs env feedID link item s)).2

/-- World after a number of consecutive cycles. -/
def afterCycles {σ : Type} (env : Env σ) : Nat → σ → σ
  | 0, s => s
  | n + 1, s => afterCycles env n (scrapeFeeds env s).state

/-! ## Example worlds -/

/-- `html.UnescapeString` on text without an ampersand, which it returns as it
is.  It stands for `html.UnescapeString` in the example worlds only, whose
documents hold no ampersand. -/
def plainText (s : String) : String := s

/-- The float64 expression of `time.ParseDuration` for the fraction of a
segment, read as the exact quotient.  It is consulted only for a segment with
a fractional part that is not zero; it stands for the expression in the
example worlds only, whose command lines have no fractional part. -/
def exactFraction (f unit scale : Nat) : Nat := f * unit / scale

/-- The world of the examples: the storage of the spec behind a network
`web`, for documents without an ampersand and durations without a fraction. -/
abbrev exampleEnv (web : Nat → String → Except GoError RSSFeed) : Env Store :=
  specEnv plainText exactFraction web

/-- A feed that has never been fetched. -/
def feedF : database.Feed :=
  { ID := 7, CreatedAt := ⟨1700000000, 0⟩, UpdatedAt := ⟨1700000000, 0⟩, Name := "ex",
    Url := "https://ex.com/rss", UserID := 1,
    LastFetchedAt := { Time := time.Time.zero, Valid := false } }

/-- A storage that holds the feed `feedF` and no posts. -/
def store0 : Store :=
  { feeds := [feedF], posts := [], clock := 1750000000, uuids := 100, fetches := 0 }

/-- A document with two items, the first dated, the second with a date that
cannot be read. -/
def docTwo : RSSFeed :=
  { Channel :=
    { Title := "Ex", Link := "https://ex.com", Description := "Example",
      Item :=
        [{ Title := "First", Link := "https://ex.com/1", Description := "one",
           PubDate := "2024-01-01T00:00:00Z" },
         { Title := "Second", Link := "https://ex.com/2", Description := "two",
           PubDate := "not-a-date" }] } }

/-- A document with three items. -/
def docThree : RSSFeed :=
  { Channel :=
    { Title := "Ex", Link := "https://ex.com", Description := "Example",
      Item :=
        [{ Title := "First", Link := "https://ex.com/1", Description := "one",
           PubDate := "2024-01-01T00:00:00Z" },
         { Title := "Second", Link := "https://ex.com/2", Description := "two",
           PubDate := "2024-01-02T00:00:00Z" },
         { Title := "Third", Link := "https://ex.com/3", Description := "three",
           PubDate := "2024-01-03T00:00:00Z" }] } }

/-- A network on which every fetch fails. -/
def webDown : Nat → String → Except GoError RSSFeed :=
  fun _ _ => .error (.errorString 5 "connection refused")

/-- A network that serves `docTwo` at every address. -/
def webTwo : Nat → String → Except GoError RSSFeed :=
  fun _ _ => .ok docTwo

/-- A network that serves `docThree` at every address. -/
def webThree : Nat → String → Except GoError RSSFeed :=
  fun _ _ => .ok docThree

/-- A driver error that is not a constraint violation. -/
def diskFull : GoError := .pqError 2 "53100" "could not extend file: No space left on device"

/-- The world `exampleEnv webThree` with a storage that has no uniqueness
constraint on posts and runs out of space when the post titled "Second" is
inserted. -/
def envDiskFull : Env Store :=
  { exampleEnv webThree with
    CreatePost := fun s p =>
      if p.Title = "Second" then (some diskFull, s)
      else (none, { s with posts := s.posts ++ [p] }) }

/-- A storage that already holds a post of `feedF` under the link of `docTwo`. -/
def storeSeen : Store :=
  { store0 with
    posts := [{ ID := 50, CreatedAt := ⟨1740000000, 0⟩, UpdatedAt := ⟨1740000000, 0⟩,
                Title := "First", Url := "https://ex.com", Description := "one",
                PublishedAt := { Time := ⟨1704067200, 0⟩, Valid := true }, FeedID := 7 }] }

/-- A document whose only item has a date that cannot be read. -/
def docBadDate : RSSFeed :=
  { Channel :=
    { Title := "Ex", Link := "https://ex.com", Description := "Example",
      Item :=
        [{ Title := "Undated", Link := "https://ex.com/u", Description := "when?",
           PubDate := "not-a-date" }] } }

/-- A network that serves `docBadDate` at every address. -/
def webBadDate : Nat → String → Except GoError RSSFeed :=
  fun _ _ => .ok docBadDate

/-- A storage with an empty feed catalog. -/
def storeEmpty : Store :=
  { feeds := [], posts := [], clock := 1750000000, uuids := 100, fetches := 0 }

/-- Stand-ins for the ten handlers that are not `handlerAgg`; each returns nil
at once. -/
def idleHandlers : Handlers Store :=
  { handlerLogin := fun s _ => .returned none s []
    handlerRegister := fun s _ => .returned none s []
    handlerReset := fun s _ => .returned none s []
    handlerListUsers := fun s _ => .returned none s []
    handlerCreateFeeds := fun s _ => .returned none s []
    handlerFeeds := fun s _ => .returned none s []
    handlerFollow := fun s _ => .returned none s []
    handlerFollowing := fun s _ => .returned none s []
    handlerUnfollow := fun s _ => .returned none s []
    handlerBrowse := fun s _ => .returned none s [] }

/-- A catalog of three feeds, none fetched yet. -/
def storeThree : Store :=
  { feeds :=
      [{ feedF with ID := 9, Name := "nine", Url := "https://nine.example/rss" },
       { feedF with ID := 4, Name := "four", Url := "https://four.example/rss" },
       { feedF with ID := 7, Name := "seven", Url := "https://seven.example/rss" }],
    posts := [], clock := 1750000000, uuids := 100, fetches := 0 }

/-- A network on which the first fetch fails and every later one finds
`docTwo`. -/
def webFlaky : Nat → String → Except GoError RSSFeed :=
  fun n _ => if n = 0 then .error (.errorString 5 "connection refused") else .ok docTwo

/-- The world `exampleEnv webTwo` with a storage that has no uniqueness
constraint on posts and accepts every post. -/
def envNoUnique : Env Store :=
  { exampleEnv webTwo with
    CreatePost := fun s p => (none, { s with posts := s.posts ++ [p] }) }

theorem errors_Is_of_maxAddr_lt (err target : GoError) (h : err.maxAddr < target.addr) :
    errors.Is err target = false := by
  induction err with
  | errorString a s =>
    have h1 : a ≠ target.addr := Nat.ne_of_lt h
    simpa only [errors.Is, GoError.addr, beq_eq_false_iff_ne] using h1
  | wrapError a msg inner ih =>
    simp only [GoError.maxAddr] at h
    have h1 : a ≠ target.addr := Nat.ne_of_lt (lt_of_le_of_lt (le_max_left _ _) h)
    have h2 : inner.maxAddr < target.addr := lt_of_le_of_lt (le_max_right _ _) h
    simp only [errors.Is, ih h2, Bool.or_false, beq_eq_false_iff_ne]
    exact h1
  | pqError a c m =>
    have h1 : a ≠ target.addr := Nat.ne_of_lt h
    simpa only [errors.Is, GoError.addr, beq_eq_false_iff_ne] using h1

/-- A freshly made error value is never found in the chain of an error that
existed before it. -/
theorem errors_Is_New (err : GoError) (text : String) :
    errors.Is err (errors.New [err] text) = false := by
  apply errors_Is_of_maxAddr_lt
  simp [errors.New, GoError.addr, freshAddr]

/-! ## Lemmas on the loop -/

theorem scrapeFeedsLoop_cons_none {σ : Type} (env : Env σ) (feedID : uuid.UUID)
    (link : String) (item : RSSItem) (rest : List RSSItem) (s : σ)
    (h : (env.CreatePost (beforeCreatePost env s)
      (createPostArgs env feedID link item s)).1 = none) :
    scrapeFeedsLoop env feedID link (item :: rest) s =
      { scrapeFeedsLoop env feedID link rest
          (env.CreatePost (beforeCreatePost env s) (createPostArgs env feedID link item s)).2 with
        calls := Call.CreatePost (createPostArgs env feedID link item s) ::
          (scrapeFeedsLoop env feedID link rest
            (env.CreatePost (beforeCreatePost env s)
              (createPostArgs env feedID link item s)).2).calls } := by
  simp only [scrapeFeedsLoop, h]

theorem scrapeFeedsLoop_cons_some {σ : Type} (env : Env σ) (feedID : uuid.UUID)
    (link : String) (item : RSSItem) (rest : List RSSItem) (s : σ) (e : GoError)
    (h : (env.CreatePost (beforeCreatePost env s)
      (createPostArgs env feedID link item s)).1 = some e) :
    scrapeFeedsLoop env feedID link (item :: rest) s =
      { err := some (fmt.ErrorfW "Failed to insert post: " e),
        state := (env.CreatePost (beforeCreatePost env s)
          (createPostArgs env feedID link item s)).2,
        calls := [Call.CreatePost (createPostArgs env feedID link item s)] } := by
  simp only [scrapeFeedsLoop, h, errors_Is_New]
  simp

theorem createPostCalls_map (l : List database.CreatePostParams) :
    createPostCalls (l.map Call.CreatePost) = l := by
  induction l with
  | nil => rfl
  | cons a l ih => simp [createPostCalls, ih]

/-- The loop only makes `CreatePost` calls. -/
theorem scrapeFeedsLoop_calls {σ : Type} (env : Env σ) (feedID : uuid.UUID) (link : String)
    (items : List RSSItem) (s : σ) :
    (scrapeFeedsLoop env feedID link items s).calls =
      (createPostCalls (scrapeFeedsLoop env feedID link items s).calls).map Call.CreatePost := by
  induction items generalizing s with
  | nil => simp [scrapeFeedsLoop, createPostCalls]
  | cons item rest ih =>
    cases h : (env.CreatePost (beforeCreatePost env s)
      (createPostArgs env feedID link item s)).1 with
    | none =>
      rw [scrapeFeedsLoop_cons_none env feedID link item rest s h]
      simp only [createPostCalls, List.map_cons]
      rw [← ih]
    | some e =>
      rw [scrapeFeedsLoop_cons_some env feedID link item rest s e h]
      simp [createPostCalls]

/-- While `CreatePost` succeeds the loop goes on: after a run of successes it
is where the loop over the remaining items starts. -/
theorem scrapeFeedsLoop_append {σ : Type} (env : Env σ) (feedID : uuid.UUID) (link : String)
    (pre post : List RSSItem) (s : σ)
    (hpre : ∀ r ∈ postResults env feedID link pre s, r = none) :
    (scrapeFeedsLoop env feedID link (pre ++ post) s).err =
      (scrapeFeedsLoop env feedID link post (afterPosts env feedID link pre s)).err ∧
    (scrapeFeedsLoop env feedID link (pre ++ post) s).state =
      (scrapeFeedsLoop env feedID link post (afterPosts env feedID link pre s)).state ∧
    (scrapeFeedsLoop env feedID link (pre ++ post) s).calls =
      (postArgs env feedID link pre s).map Call.CreatePost ++
        (scrapeFeedsLoop env feedID link post (afterPosts env feedID link pre s)).calls := by
  induction pre generalizing s with
  | nil => simp [afterPosts, postArgs]
  | cons item rest ih =>
    have h : (env.CreatePost (beforeCreatePost env s)
        (createPostArgs env feedID link item s)).1 = none :=
      hpre _ (by simp [postResults])
    have hrest := ih (env.CreatePost (beforeCreatePost env s)
        (createPostArgs env feedID link item s)).2
      (fun r hr => hpre r (by simp [postResults, hr]))
    rw [List.cons_append, scrapeFeedsLoop_cons_none env feedID link item (rest ++ post) s h]
    simp only [afterPosts, postArgs, List.map_cons, List.cons_append]
    exact ⟨hrest.1, hrest.2.1, by rw [hrest.2.2]⟩

/-- The shape of a cycle whose selection, marking and fetch succeed. -/
theorem scrapeFeeds_fetched {σ : Type} (env : Env σ) (s : σ) (f : database.Feed)
    (feed : RSSFeed)
    (hget : (env.GetNextFeedToFetch s).1 = .ok f)
    (hmark : (env.MarkFeedFetched (env.GetNextFeedToFetch s).2 f.ID).1 = none)
    (hfetch : (env.fetchFeed (env.MarkFeedFetched (env.GetNextFeedToFetch s).2 f.ID).2
      f.Url).1 = .ok feed) :
    scrapeFeeds env s =
      { scrapeFeedsLoop env f.ID feed.Channel.Link feed.Channel.Item
          (env.fetchFeed (env.MarkFeedFetched (env.GetNextFeedToFetch s).2 f.ID).2 f.Url).2 with
        calls := [Call.GetNextFeedToFetch, Call.MarkFeedFetched f.ID,
            Call.Println "Fetching Feeds", Call.fetchFeed f.Url] ++
          (scrapeFeedsLoop env f.ID feed.Channel.Link feed.Channel.Item
            (env.fetchFeed (env.MarkFeedFetched (env.GetNextFeedToFetch s).2 f.ID).2
              f.Url).2).calls } := by
  simp only [scrapeFeeds, hget, hmark, hfetch]

theorem scrapeFeeds_fetch_failed {σ : Type} (env : Env σ) (s : σ) (f : database.Feed)
    (e : GoError)
    (hget : (env.GetNextFeedToFetch s).1 = .ok f)
    (hmark : (env.MarkFeedFetched (env.GetNextFeedToFetch s).2 f.ID).1 = none)
    (hfetch : (env.fetchFeed (env.MarkFeedFetched (env.GetNextFeedToFetch s).2 f.ID).2
      f.Url).1 = .error e) :
    scrapeFeeds env s =
      { err := some e,
        state := (env.fetchFeed (env.MarkFeedFetched (env.GetNextFeedToFetch s).2 f.ID).2
          f.Url).2,
        calls := [Call.GetNextFeedToFetch, Call.MarkFeedFetched f.ID,
            Call.Println "Fetching Feeds", Call.fetchFeed f.Url] } := by
  simp only [scrapeFeeds, hget, hmark, hfetch]


theorem postArgs_length {σ : Type} (env : Env σ) (feedID : uuid.UUID) (link : String)
    (items : List RSSItem) (s : σ) :
    (postArgs env feedID link items s).length = items.length := by
  induction items generalizing s with
  | nil => rfl
  | cons item rest ih => simp [postArgs, ih]

theorem createPostCalls_append (a b : List Call) :
    createPostCalls (a ++ b) = createPostCalls a ++ createPostCalls b := by
  induction a with
  | nil => rfl
  | cons c a ih => cases c <;> simp [createPostCalls, ih]

/-- Every `CreatePost` call of the loop is for the item at the same position
and carries the link and feed identity the loop was given. -/
theorem scrapeFeedsLoop_post_fields {σ : Type} (env : Env σ) (feedID : uuid.UUID)
    (link : String) (items : List RSSItem) (s : σ) (i : Nat)
    (arg : database.CreatePostParams)
    (h : (createPostCalls (scrapeFeedsLoop env feedID link items s).calls)[i]? = some arg) :
    ∃ item, items[i]? = some item ∧ arg.Url = link ∧ arg.FeedID = feedID ∧
      arg.Title = env.UnescapeString item.Title ∧
      arg.Description = env.UnescapeString item.Description ∧
      arg.PublishedAt = convertToNullTime env.timeParse item.PubDate := by
  induction items generalizing s i with
  | nil => simp [scrapeFeedsLoop, createPostCalls] at h
  | cons item rest ih =>
    cases hc : (env.CreatePost (beforeCreatePost env s)
      (createPostArgs env feedID link item s)).1 with
    | none =>
      rw [scrapeFeedsLoop_cons_none env feedID link item rest s hc] at h
      simp only [createPostCalls] at h
      cases i with
      | zero =>
        simp only [List.getElem?_cons_zero, Option.some.injEq] at h
        subst h
        exact ⟨item, List.getElem?_cons_zero, rfl, rfl, rfl, rfl, rfl⟩
      | succ j =>
        simp only [List.getElem?_cons_succ] at h
        simpa using ih _ j h
    | some e =>
      rw [scrapeFeedsLoop_cons_some env feedID link item rest s e hc] at h
      simp only [createPostCalls] at h
      cases i with
      | zero =>
        simp only [List.getElem?_cons_zero, Option.some.injEq] at h
        subst h
        exact ⟨item, List.getElem?_cons_zero, rfl, rfl, rfl, rfl, rfl⟩
      | succ j => simp at h

theorem scrapeFeedsLoop_cons_calls {σ : Type} (env : Env σ) (feedID : uuid.UUID)
    (link : String) (item : RSSItem) (rest : List RSSItem) (s : σ) :
    ∃ tail, (scrapeFeedsLoop env feedID link (item :: rest) s).calls =
      Call.CreatePost (createPostArgs env feedID link item s) :: tail := by
  cases hc : (env.CreatePost (beforeCreatePost env s)
      (createPostArgs env feedID link item s)).1 with
  | none =>
    rw [scrapeFeedsLoop_cons_none env feedID link item rest s hc]
    exact ⟨_, rfl⟩
  | some e =>
    rw [scrapeFeedsLoop_cons_some env feedID link item rest s e hc]
    exact ⟨_, rfl⟩

theorem convertToNullTime_of_none (p : String → String → Option time.Time) (d : String)
    (h : p layout d = none) :
    convertToNullTime p d = { Time := time.Time.zero, Valid := false } := by
  unfold convertToNullTime
  split
  · rfl
  · rw [h]

theorem convertToNullTime_of_some (p : String → String → Option time.Time) (d : String)
    (t : time.Time) (hd : d ≠ "") (h : p layout d = some t) :
    convertToNullTime p d = { Time := t, Valid := true } := by
  unfold convertToNullTime
  rw [if_neg hd, h]

theorem convertToNullTime_valid_iff (p : String → String → Option time.Time) (d : String) :
    (convertToNullTime p d).Valid = true ↔ d ≠ "" ∧ ∃ t, p layout d = some t := by
  by_cases hd : d = ""
  · simp [convertToNullTime, hd]
  · cases h : p layout d with
    | none => simp [convertToNullTime_of_none p d h, hd]
    | some t => simp [convertToNullTime_of_some p d t hd h, hd]

theorem createPostCalls_cons_post (arg : database.CreatePostParams) (l : List Call) :
    createPostCalls (Call.CreatePost arg :: l) = arg :: createPostCalls l := rfl

/-- The `CreatePost` calls of a cycle that fetched a document are those of
its loop. -/
theorem scrapeFeeds_fetched_posts {σ : Type} (env : Env σ) (s : σ) (f : database.Feed)
    (feed : RSSFeed)
    (hget : (env.GetNextFeedToFetch s).1 = .ok f)
    (hmark : (env.MarkFeedFetched (env.GetNextFeedToFetch s).2 f.ID).1 = none)
    (hfetch : (env.fetchFeed (env.MarkFeedFetched (env.GetNextFeedToFetch s).2 f.ID).2
      f.Url).1 = .ok feed) :
    createPostCalls (scrapeFeeds env s).calls =
      createPostCalls (scrapeFeedsLoop env f.ID feed.Channel.Link feed.Channel.Item
        (env.fetchFeed (env.MarkFeedFetched (env.GetNextFeedToFetch s).2 f.ID).2
          f.Url).2).calls := by
  rw [scrapeFeeds_fetched env s f feed hget hmark hfetch]
  rfl

/-- After `ticks` ticks the loop has run `ticks + 1` cycles, each from the
world the previous one left, whatever the cycles returned. -/
theorem pollingLoop_eq {σ : Type} (env : Env σ) (ticks : Nat) (s : σ) :
    (pollingLoop env ticks s).state = afterCycles env (ticks + 1) s ∧
    (pollingLoop env ticks s).results =
      (List.range (ticks + 1)).map (fun i => (scrapeFeeds env (afterCycles env i s)).err) ∧
    (pollingLoop env ticks s).calls =
      ((List.range (ticks + 1)).map
        (fun i => (scrapeFeeds env (afterCycles env i s)).calls)).flatten := by
  induction ticks generalizing s with
  | zero => simp [pollingLoop, afterCycles, List.range_succ]
  | succ n ih =>
    obtain ⟨h1, h2, h3⟩ := ih (scrapeFeeds env s).state
    refine ⟨?_, ?_, ?_⟩
    · simp only [pollingLoop, h1, afterCycles]
    · rw [List.range_succ_eq_map]
      simp only [pollingLoop, h2, List.map_cons, List.map_map, afterCycles]
      rfl
    · rw [List.range_succ_eq_map]
      simp only [pollingLoop, h3, List.map_cons, List.map_map, List.flatten_cons, afterCycles]
      rfl

/-- The calls of a cycle whose selection and marking succeed: the four calls
up to the fetch, then `CreatePost` calls only. -/
theorem scrapeFeeds_marks_selected {σ : Type} (env : Env σ) (s : σ) (f : database.Feed)
    (hget : (env.GetNextFeedToFetch s).1 = .ok f)
    (hmark : (env.MarkFeedFetched (env.GetNextFeedToFetch s).2 f.ID).1 = none) :
    ∃ posts : List database.CreatePostParams, (scrapeFeeds env s).calls =
      [Call.GetNextFeedToFetch, Call.MarkFeedFetched f.ID, Call.Println "Fetching Feeds",
        Call.fetchFeed f.Url] ++ posts.map Call.CreatePost := by
  cases hfetch : (env.fetchFeed (env.MarkFeedFetched (env.GetNextFeedToFetch s).2 f.ID).2
      f.Url).1 with
  | error e =>
    refine ⟨[], ?_⟩
    rw [scrapeFeeds_fetch_failed env s f e hget hmark hfetch]
    rfl
  | ok feed =>
    refine ⟨createPostCalls (scrapeFeedsLoop env f.ID feed.Channel.Link feed.Channel.Item
      (env.fetchFeed (env.MarkFeedFetched (env.GetNextFeedToFetch s).2 f.ID).2
        f.Url).2).calls, ?_⟩
    rw [scrapeFeeds_fetched env s f feed hget hmark hfetch]
    simp only
    rw [← scrapeFeedsLoop_calls]

/-! ## Lemmas on feed selection -/

theorem selectedFeeds_append (a b : List Call) :
    selectedFeeds (a ++ b) = selectedFeeds a ++ selectedFeeds b := by
  induction a with
  | nil => rfl
  | cons c a ih => cases c <;> simp [selectedFeeds, ih]

theorem selectedFeeds_map_post (l : List database.CreatePostParams) :
    selectedFeeds (l.map Call.CreatePost) = [] := by
  induction l with
  | nil => rfl
  | cons a l ih => simp [selectedFeeds, ih]

/-- The loop leaves the feed rows alone. -/
theorem scrapeFeedsLoop_keeps_feeds {σ : Type} (env : Env σ)
    (feedsOf : σ → List database.Feed) (hport : OldestFirst env feedsOf)
    (feedID : uuid.UUID) (link : String) (items : List RSSItem) (s : σ) :
    feedsOf (scrapeFeedsLoop env feedID link items s).state = feedsOf s := by
  induction items generalizing s with
  | nil => rfl
  | cons item rest ih =>
    have hkeep : feedsOf (env.CreatePost (beforeCreatePost env s)
        (createPostArgs env feedID link item s)).2 = feedsOf s := by
      rw [hport.create_keeps, beforeCreatePost, hport.now_keeps, hport.now_keeps,
        hport.uuid_keeps]
    cases hc : (env.CreatePost (beforeCreatePost env s)
      (createPostArgs env feedID link item s)).1 with
    | none =>
      rw [scrapeFeedsLoop_cons_none env feedID link item rest s hc]
      exact (ih _).trans hkeep
    | some e =>
      rw [scrapeFeedsLoop_cons_some env feedID link item rest s e hc]
      exact hkeep

/-- One cycle on a catalog that is not empty selects the feed that is due
first, marks it, and changes no other feed row. -/
theorem scrapeFeeds_selects {σ : Type} (env : Env σ) (feedsOf : σ → List database.Feed)
    (hport : OldestFirst env feedsOf) (s : σ) (hne : feedsOf s ≠ []) :
    ∃ f now, f ∈ feedsOf s ∧ (∀ g ∈ feedsOf s, dueBefore f g) ∧
      selectedFeeds (scrapeFeeds env s).calls = [f.ID] ∧
      feedsOf (scrapeFeeds env s).state = (feedsOf s).map (markedFetched f.ID now) := by
  obtain ⟨f, hget, hmem, hdue⟩ := hport.next_due s hne
  obtain ⟨now, hnow⟩ := hport.mark_sets (env.GetNextFeedToFetch s).2 f.ID
  rw [hport.next_keeps] at hnow
  have hmark := hport.mark_ok (env.GetNextFeedToFetch s).2 f.ID
  refine ⟨f, now, hmem, hdue, ?_, ?_⟩
  · obtain ⟨posts, hposts⟩ := (scrapeFeeds_marks_selected env s f hget hmark)
    rw [hposts, selectedFeeds_append, selectedFeeds_map_post]
    rfl
  · cases hfetch : (env.fetchFeed (env.MarkFeedFetched (env.GetNextFeedToFetch s).2 f.ID).2
        f.Url).1 with
    | error e =>
      rw [scrapeFeeds_fetch_failed env s f e hget hmark hfetch]
      simp only
      rw [hport.fetch_keeps, hnow]
    | ok feed =>
      rw [scrapeFeeds_fetched env s f feed hget hmark hfetch]
      simp only
      rw [scrapeFeedsLoop_keeps_feeds env feedsOf hport, hport.fetch_keeps, hnow]

theorem map_ID_markedFetched (id : uuid.UUID) (now : time.Time) (l : List database.Feed) :
    (l.map (markedFetched id now)).map (fun f => f.ID) = l.map (fun f => f.ID) := by
  induction l with
  | nil => rfl
  | cons f l ih =>
    simp only [List.map_cons, ih]
    congr 1
    unfold markedFetched
    split <;> rfl

theorem mem_neverFetched {l : List database.Feed} {g : database.Feed} :
    g ∈ neverFetched l ↔ g ∈ l ∧ g.LastFetchedAt.Valid = false := by
  simp [neverFetched]

/-- A feed that is still unfetched after a marking was unfetched before and
is not the marked one. -/
theorem neverFetched_of_marked (id : uuid.UUID) (now : time.Time) (l : List database.Feed)
    (g : database.Feed) (h : g ∈ neverFetched (l.map (markedFetched id now))) :
    g ∈ neverFetched l ∧ g.ID ≠ id := by
  rw [mem_neverFetched] at h
  obtain ⟨hmem, hval⟩ := h
  obtain ⟨f, hf, hfg⟩ := List.mem_map.mp hmem
  unfold markedFetched at hfg
  by_cases hid : f.ID = id
  · rw [if_pos hid] at hfg
    rw [← hfg] at hval
    simp at hval
  · rw [if_neg hid] at hfg
    subst hfg
    exact ⟨mem_neverFetched.mpr ⟨hf, hval⟩, hid⟩

/-- Marking an unfetched feed of a catalog with distinct identities takes
exactly one feed out of the unfetched ones. -/
theorem neverFetched_length_marked (now : time.Time) (l : List database.Feed)
    (f : database.Feed) (hf : f ∈ l) (hval : f.LastFetchedAt.Valid = false)
    (hids : (l.map (fun f => f.ID)).Nodup) :
    (neverFetched (l.map (markedFetched f.ID now))).length + 1 = (neverFetched l).length := by
  induction l with
  | nil => cases hf
  | cons g l ih =>
    rw [List.map_cons, List.nodup_cons] at hids
    obtain ⟨hg, hnd⟩ := hids
    by_cases hgf : g.ID = f.ID
    · have hrest : l.map (markedFetched f.ID now) = l := by
        have hid : l.map (markedFetched f.ID now) = l.map id := by
          apply List.map_congr_left
          intro x hx
          unfold markedFetched
          rw [if_neg]
          · rfl
          · intro hxf
            exact hg (List.mem_map.mpr ⟨x, hx, by rw [hxf, hgf]⟩)
        rw [hid, List.map_id]
      have hgval : g.LastFetchedAt.Valid = false := by
        rcases List.mem_cons.mp hf with h | h
        · rw [← h]; exact hval
        · exact absurd (List.mem_map.mpr ⟨f, h, hgf.symm⟩) hg
      have hmarked : (markedFetched f.ID now g).LastFetchedAt.Valid = true := by
        unfold markedFetched
        rw [if_pos hgf]
      simp only [neverFetched, List.map_cons, List.filter_cons, hmarked, hgval, hrest,
        Bool.not_true, Bool.not_false, if_true, if_false, List.length_cons]
      simp
    · have hfl : f ∈ l := by
        rcases List.mem_cons.mp hf with h | h
        · exact absurd (by rw [h]) hgf
        · exact h
      have hrec := ih hfl hnd
      have hsame : markedFetched f.ID now g = g := by
        unfold markedFetched
        rw [if_neg hgf]
      simp only [neverFetched] at hrec ⊢
      simp only [List.map_cons, hsame, List.filter_cons]
      cases hv : g.LastFetchedAt.Valid
      · simp only [Bool.not_false, if_true, List.length_cons]
        omega
      · simp only [Bool.not_true]
        exact hrec

/-- The feed that is due first is unfetched as long as some feed is. -/
theorem dueFirst_neverFetched (l : List database.Feed) (f u : database.Feed)
    (hdue : ∀ g ∈ l, dueBefore f g) (hu : u ∈ neverFetched l) :
    f.LastFetchedAt.Valid = false := by
  obtain ⟨hul, huv⟩ := mem_neverFetched.mp hu
  rcases hdue u hul with h | h | h
  · exact h.1
  · exact h.1
  · rw [huv] at h
    exact absurd h.2.1 (by decide)

/-- While unfetched feeds are left, consecutive cycles select unfetched
feeds, each a different one. -/
theorem pollingLoop_selects_neverFetched {σ : Type} (env : Env σ)
    (feedsOf : σ → List database.Feed) (hport : OldestFirst env feedsOf) (k : Nat) (s : σ)
    (hids : ((feedsOf s).map (fun f => f.ID)).Nodup)
    (hleft : k + 1 ≤ (neverFetched (feedsOf s)).length) :
    (selectedFeeds (pollingLoop env k s).calls).length = k + 1 ∧
    (selectedFeeds (pollingLoop env k s).calls).Nodup ∧
    ∀ id ∈ selectedFeeds (pollingLoop env k s).calls,
      ∃ g ∈ neverFetched (feedsOf s), g.ID = id := by
  induction k generalizing s with
  | zero =>
    have hne : feedsOf s ≠ [] := by
      intro h0
      rw [h0] at hleft
      simp [neverFetched] at hleft
    obtain ⟨u, hu⟩ := List.exists_mem_of_length_pos (Nat.lt_of_lt_of_le Nat.zero_lt_one hleft)
    obtain ⟨f, now, hmem, hdue, hsel, _⟩ := scrapeFeeds_selects env feedsOf hport s hne
    have hfv := dueFirst_neverFetched (feedsOf s) f u hdue hu
    simp only [pollingLoop, hsel]
    refine ⟨rfl, List.nodup_singleton _, ?_⟩
    intro id hid
    rw [List.mem_singleton] at hid
    exact ⟨f, mem_neverFetched.mpr ⟨hmem, hfv⟩, hid.symm⟩
  | succ n ih =>
    have hpos : 0 < (neverFetched (feedsOf s)).length := by omega
    have hne : feedsOf s ≠ [] := by
      intro h0
      rw [h0] at hpos
      simp [neverFetched] at hpos
    obtain ⟨u, hu⟩ := List.exists_mem_of_length_pos hpos
    obtain ⟨f, now, hmem, hdue, hsel, hstate⟩ := scrapeFeeds_selects env feedsOf hport s hne
    have hfv := dueFirst_neverFetched (feedsOf s) f u hdue hu
    have hlen := neverFetched_length_marked now (feedsOf s) f hmem hfv hids
    have hids1 : ((feedsOf (scrapeFeeds env s).state).map (fun f => f.ID)).Nodup := by
      rw [hstate, map_ID_markedFetched]
      exact hids
    have hleft1 : n + 1 ≤ (neverFetched (feedsOf (scrapeFeeds env s).state)).length := by
      rw [hstate]
      omega
    obtain ⟨h1, h2, h3⟩ := ih (scrapeFeeds env s).state hids1 hleft1
    have hcalls : selectedFeeds (pollingLoop env (n + 1) s).calls =
        f.ID :: selectedFeeds (pollingLoop env n (scrapeFeeds env s).state).calls := by
      simp only [pollingLoop, selectedFeeds_append, hsel, List.singleton_append]
    rw [hcalls]
    refine ⟨by rw [List.length_cons, h1], ?_, ?_⟩
    · rw [List.nodup_cons]
      refine ⟨?_, h2⟩
      intro hin
      obtain ⟨g, hg, hgid⟩ := h3 f.ID hin
      rw [hstate] at hg
      exact (neverFetched_of_marked f.ID now (feedsOf s) g hg).2 hgid
    · intro id hid
      rcases List.mem_cons.mp hid with h | h
      · exact ⟨f, mem_neverFetched.mpr ⟨hmem, hfv⟩, h.symm⟩
      · obtain ⟨g, hg, hgid⟩ := h3 id h
        rw [hstate] at hg
        exact ⟨g, (neverFetched_of_marked f.ID now (feedsOf s) g hg).1, hgid⟩

theorem neverFetched_eq_self (l : List database.Feed)
    (h : ∀ f ∈ l, f.LastFetchedAt.Valid = false) : neverFetched l = l := by
  unfold neverFetched
  rw [List.filter_eq_self]
  intro f hf
  rw [h f hf]
  rfl

/-! ## The storage of the spec keeps the promise of the port -/

theorem dueBefore_refl (f : database.Feed) : dueBefore f f := by
  unfold dueBefore
  cases f.LastFetchedAt.Valid <;> simp

theorem lex_total (s1 s2 : Int) (n1 n2 i1 i2 : Nat)
    (h : ¬ (s1 < s2 ∨ s1 = s2 ∧ (n1 < n2 ∨ n1 = n2 ∧ i1 ≤ i2))) :
    s2 < s1 ∨ s2 = s1 ∧ (n2 < n1 ∨ n2 = n1 ∧ i2 ≤ i1) := by
  omega

theorem lex_trans (s1 s2 s3 : Int) (n1 n2 n3 i1 i2 i3 : Nat)
    (h1 : s1 < s2 ∨ s1 = s2 ∧ (n1 < n2 ∨ n1 = n2 ∧ i1 ≤ i2))
    (h2 : s2 < s3 ∨ s2 = s3 ∧ (n2 < n3 ∨ n2 = n3 ∧ i2 ≤ i3)) :
    s1 < s3 ∨ s1 = s3 ∧ (n1 < n3 ∨ n1 = n3 ∧ i1 ≤ i3) := by
  omega

theorem dueBefore_total (f g : database.Feed) (h : ¬ dueBefore f g) : dueBefore g f := by
  unfold dueBefore at h ⊢
  cases hf : f.LastFetchedAt.Valid <;> cases hg : g.LastFetchedAt.Valid <;>
    simp only [hf, hg, true_and, false_and, and_true, and_false, or_false, false_or,
      or_true, true_or, Bool.false_eq_true, Bool.true_eq_false, not_false_eq_true,
      not_true_eq_false, reduceCtorEq] at h ⊢
  · exact Nat.le_of_not_le h
  · exact lex_total _ _ _ _ _ _ h

theorem dueBefore_trans (f g k : database.Feed) (h1 : dueBefore f g) (h2 : dueBefore g k) :
    dueBefore f k := by
  unfold dueBefore at h1 h2 ⊢
  cases hf : f.LastFetchedAt.Valid <;> cases hg : g.LastFetchedAt.Valid <;>
    cases hk : k.LastFetchedAt.Valid <;>
    simp only [hf, hg, hk, true_and, false_and, and_true, and_false, or_false, false_or,
      or_true, true_or, Bool.false_eq_true, Bool.true_eq_false, not_false_eq_true,
      not_true_eq_false, reduceCtorEq] at h1 h2 ⊢
  · exact Nat.le_trans h1 h2
  · exact lex_trans _ _ _ _ _ _ _ _ _ h1 h2

theorem firstDue_spec (l : List database.Feed) (hne : l ≠ []) :
    ∃ f, firstDue l = some f ∧ f ∈ l ∧ ∀ g ∈ l, dueBefore f g := by
  induction l with
  | nil => exact absurd rfl hne
  | cons a l ih =>
    cases l with
    | nil =>
      refine ⟨a, rfl, List.mem_singleton.mpr rfl, ?_⟩
      intro g hg
      rw [List.mem_singleton.mp hg]
      exact dueBefore_refl a
    | cons b l =>
      obtain ⟨m, hm, hmem, hmin⟩ := ih (List.cons_ne_nil b l)
      by_cases hab : dueBefore a m
      · refine ⟨a, ?_, List.mem_cons_self _ _, ?_⟩
        · have hstep : firstDue (a :: b :: l) =
              (match firstDue (b :: l) with
                | none => some a
                | some g => if dueBefore a g then some a else some g) := rfl
          rw [hstep, hm]
          simp only [if_pos hab]
        · intro g hg
          rcases List.mem_cons.mp hg with h | h
          · rw [h]; exact dueBefore_refl a
          · exact dueBefore_trans a m g hab (hmin g h)
      · refine ⟨m, ?_, List.mem_cons_of_mem _ hmem, ?_⟩
        · have hstep : firstDue (a :: b :: l) =
              (match firstDue (b :: l) with
                | none => some a
                | some g => if dueBefore a g then some a else some g) := rfl
          rw [hstep, hm]
          simp only [if_neg hab]
        · intro g hg
          rcases List.mem_cons.mp hg with h | h
          · rw [h]; exact dueBefore_total a m hab
          · exact hmin g h

/-- The storage modelled from the spec is a Storage Port as `OldestFirst`
describes it, whatever the network serves and the
library functions compute. -/
theorem specEnv_oldestFirst (unescape : String → String) (frac : Nat → Nat → Nat → Nat)
    (web : Nat → String → Except GoError RSSFeed) :
    OldestFirst (specEnv unescape frac web) Store.feeds where
  next_due := by
    intro s hne
    obtain ⟨f, hf, hmem, hmin⟩ := firstDue_spec s.feeds hne
    exact ⟨f, by simp only [specEnv, Store.GetNextFeedToFetch, hf], hmem, hmin⟩
  next_keeps := by
    intro s
    simp only [specEnv, Store.GetNextFeedToFetch]
    split <;> rfl
  mark_ok := fun _ _ => rfl
  mark_sets := fun s id => ⟨⟨s.clock, 0⟩, rfl⟩
  fetch_keeps := fun _ _ => rfl
  uuid_keeps := fun _ => rfl
  now_keeps := fun _ => rfl
  create_keeps := by
    intro s p
    simp only [specEnv, Store.CreatePost]
    split <;> rfl
/-! ## The claims -/

/-- C1 (forward progress).  When `GetNextFeedToFetch` returns a feed `f` and
`MarkFeedFetched` succeeds, the calls of the cycle are `GetNextFeedToFetch`,
`MarkFeedFetched(f.ID)`, the progress line, `fetchFeed(f.Url)` and after that
only `CreatePost` calls, so the feed is marked before it is fetched.  When the
fetch fails, the cycle returns that very error, ends in the world the failed
fetch left of the marked world, and made no `CreatePost` call. -/
theorem scrapeFeeds_marks_before_fetching {σ : Type} (env : Env σ) (s : σ)
    (f : database.Feed)
    (hget : (env.GetNextFeedToFetch s).1 = .ok f)
    (hmark : (env.MarkFeedFetched (env.GetNextFeedToFetch s).2 f.ID).1 = none) :
    (∃ posts : List database.CreatePostParams, (scrapeFeeds env s).calls =
      [Call.GetNextFeedToFetch, Call.MarkFeedFetched f.ID, Call.Println "Fetching Feeds",
        Call.fetchFeed f.Url] ++ posts.map Call.CreatePost) ∧
    ∀ e, (env.fetchFeed (env.MarkFeedFetched (env.GetNextFeedToFetch s).2 f.ID).2
        f.Url).1 = .error e →
      (scrapeFeeds env s).err = some e ∧
      (scrapeFeeds env s).state =
        (env.fetchFeed (env.MarkFeedFetched (env.GetNextFeedToFetch s).2 f.ID).2 f.Url).2 ∧
      (scrapeFeeds env s).calls =
        [Call.GetNextFeedToFetch, Call.MarkFeedFetched f.ID, Call.Println "Fetching Feeds",
          Call.fetchFeed f.Url] := by
  constructor
  · exact scrapeFeeds_marks_selected env s f hget hmark
  · intro e hfetch
    rw [scrapeFeeds_fetch_failed env s f e hget hmark hfetch]
    exact ⟨rfl, rfl, rfl⟩

/-- Witness of C1: the feed `feedF` on a network that is down. -/
theorem scrapeFeeds_marks_before_fetching_witness :
    ((exampleEnv webDown).GetNextFeedToFetch store0).1 = .ok feedF ∧
    ((exampleEnv webDown).MarkFeedFetched ((exampleEnv webDown).GetNextFeedToFetch store0).2
      feedF.ID).1 = none ∧
    (scrapeFeeds (exampleEnv webDown) store0).err = some (.errorString 5 "connection refused") ∧
    (scrapeFeeds (exampleEnv webDown) store0).calls =
      [Call.GetNextFeedToFetch, Call.MarkFeedFetched 7, Call.Println "Fetching Feeds",
        Call.fetchFeed "https://ex.com/rss"] :=
  ⟨rfl, rfl,
    ((scrapeFeeds_marks_before_fetching (exampleEnv webDown) store0 feedF rfl rfl).2
      (.errorString 5 "connection refused") rfl).1,
    ((scrapeFeeds_marks_before_fetching (exampleEnv webDown) store0 feedF rfl rfl).2
      (.errorString 5 "connection refused") rfl).2.2⟩

/-- C3 (partial-cycle durability).  Let the fetched document have the items
`pre ++ item :: post`, let `CreatePost` succeed for every item of `pre` and
fail with an error `e` for `item`.  Then the cycle returns an error (the
wrapped `e`), it ends in the world that the failed call left of the world
after the posts of `pre`, with nothing undone, and its `CreatePost` calls are
those for `pre` and the one for `item`: none is made for `post`.  This holds
for every `e`, in particular for one that is not a constraint violation. -/
theorem scrapeFeeds_stops_at_failed_post {σ : Type} (env : Env σ) (s : σ)
    (f : database.Feed) (feed : RSSFeed) (pre post : List RSSItem) (item : RSSItem)
    (e : GoError)
    (hget : (env.GetNextFeedToFetch s).1 = .ok f)
    (hmark : (env.MarkFeedFetched (env.GetNextFeedToFetch s).2 f.ID).1 = none)
    (hfetch : (env.fetchFeed (env.MarkFeedFetched (env.GetNextFeedToFetch s).2 f.ID).2
      f.Url).1 = .ok feed)
    (hitems : feed.Channel.Item = pre ++ item :: post)
    (hpre : ∀ r ∈ postResults env f.ID feed.Channel.Link pre
      (env.fetchFeed (env.MarkFeedFetched (env.GetNextFeedToFetch s).2 f.ID).2 f.Url).2,
      r = none)
    (hfail : (env.CreatePost
      (beforeCreatePost env (afterPosts env f.ID feed.Channel.Link pre
        (env.fetchFeed (env.MarkFeedFetched (env.GetNextFeedToFetch s).2 f.ID).2 f.Url).2))
      (createPostArgs env f.ID feed.Channel.Link item
        (afterPosts env f.ID feed.Channel.Link pre
          (env.fetchFeed (env.MarkFeedFetched (env.GetNextFeedToFetch s).2 f.ID).2
            f.Url).2))).1 = some e) :
    (scrapeFeeds env s).err = some (fmt.ErrorfW "Failed to insert post: " e) ∧
    (scrapeFeeds env s).state =
      (env.CreatePost
        (beforeCreatePost env (afterPosts env f.ID feed.Channel.Link pre
          (env.fetchFeed (env.MarkFeedFetched (env.GetNextFeedToFetch s).2 f.ID).2
            f.Url).2))
        (createPostArgs env f.ID feed.Channel.Link item
          (afterPosts env f.ID feed.Channel.Link pre
            (env.fetchFeed (env.MarkFeedFetched (env.GetNextFeedToFetch s).2 f.ID).2
              f.Url).2))).2 ∧
    createPostCalls (scrapeFeeds env s).calls =
      postArgs env f.ID feed.Channel.Link pre
        (env.fetchFeed (env.MarkFeedFetched (env.GetNextFeedToFetch s).2 f.ID).2 f.Url).2 ++
      [createPostArgs env f.ID feed.Channel.Link item
        (afterPosts env f.ID feed.Channel.Link pre
          (env.fetchFeed (env.MarkFeedFetched (env.GetNextFeedToFetch s).2 f.ID).2
            f.Url).2)] ∧
    (createPostCalls (scrapeFeeds env s).calls).length = pre.length + 1 := by
  have hloop := scrapeFeedsLoop_append env f.ID feed.Channel.Link pre (item :: post) _ hpre
  rw [scrapeFeedsLoop_cons_some env f.ID feed.Channel.Link item post _ e hfail] at hloop
  rw [scrapeFeeds_fetched env s f feed hget hmark hfetch, hitems]
  have hcalls : createPostCalls ([Call.GetNextFeedToFetch, Call.MarkFeedFetched f.ID,
      Call.Println "Fetching Feeds", Call.fetchFeed f.Url] ++
      (scrapeFeedsLoop env f.ID feed.Channel.Link (pre ++ item :: post)
        (env.fetchFeed (env.MarkFeedFetched (env.GetNextFeedToFetch s).2 f.ID).2
          f.Url).2).calls) =
      postArgs env f.ID feed.Channel.Link pre
        (env.fetchFeed (env.MarkFeedFetched (env.GetNextFeedToFetch s).2 f.ID).2 f.Url).2 ++
      [createPostArgs env f.ID feed.Channel.Link item
        (afterPosts env f.ID feed.Channel.Link pre
          (env.fetchFeed (env.MarkFeedFetched (env.GetNextFeedToFetch s).2 f.ID).2
            f.Url).2)] := by
    rw [hloop.2.2]
    simp [createPostCalls_append, createPostCalls_map, createPostCalls]
  refine ⟨hloop.1, hloop.2.1, hcalls, ?_⟩
  rw [hcalls, List.length_append, postArgs_length]
  rfl

/-- Witness of C3: three items on a storage that runs out of space at the
second; the first post stays, the third is never attempted. -/
theorem scrapeFeeds_stops_at_failed_post_witness :
    (scrapeFeeds envDiskFull store0).err = some (fmt.ErrorfW "Failed to insert post: " diskFull) ∧
    (createPostCalls (scrapeFeeds envDiskFull store0).calls).length = 2 ∧
    (scrapeFeeds envDiskFull store0).state.posts.map (fun p => p.Title) = ["First"] :=
  ⟨(scrapeFeeds_stops_at_failed_post envDiskFull store0 feedF docThree
      [docThree.Channel.Item.get ⟨0, by decide⟩] [docThree.Channel.Item.get ⟨2, by decide⟩]
      (docThree.Channel.Item.get ⟨1, by decide⟩) diskFull rfl rfl rfl rfl
      (fun r hr => List.mem_singleton.mp hr) rfl).1,
    (scrapeFeeds_stops_at_failed_post envDiskFull store0 feedF docThree
      [docThree.Channel.Item.get ⟨0, by decide⟩] [docThree.Channel.Item.get ⟨2, by decide⟩]
      (docThree.Channel.Item.get ⟨1, by decide⟩) diskFull rfl rfl rfl rfl
      (fun r hr => List.mem_singleton.mp hr) rfl).2.2.2,
    rfl⟩

/-- C7 (post URL source).  In a cycle that fetched the document `feed` for the
feed `f`, the `i`-th `CreatePost` call is for the `i`-th item of the document:
its `Url` is the channel link of the document, whatever the link of the item,
its `FeedID` is `f.ID`, and its `Title` and `Description` are the unescaped
title and description of that item.  So all posts of a cycle carry the same
`FeedID` and `Url`. -/
theorem scrapeFeeds_post_url_is_channel_link {σ : Type} (env : Env σ) (s : σ)
    (f : database.Feed) (feed : RSSFeed)
    (hget : (env.GetNextFeedToFetch s).1 = .ok f)
    (hmark : (env.MarkFeedFetched (env.GetNextFeedToFetch s).2 f.ID).1 = none)
    (hfetch : (env.fetchFeed (env.MarkFeedFetched (env.GetNextFeedToFetch s).2 f.ID).2
      f.Url).1 = .ok feed) :
    (∀ (i : Nat) (arg : database.CreatePostParams),
      (createPostCalls (scrapeFeeds env s).calls)[i]? = some arg →
      ∃ item, feed.Channel.Item[i]? = some item ∧
        arg.Url = feed.Channel.Link ∧ arg.FeedID = f.ID ∧
        arg.Title = env.UnescapeString item.Title ∧
        arg.Description = env.UnescapeString item.Description) ∧
    (∀ a ∈ createPostCalls (scrapeFeeds env s).calls,
      ∀ b ∈ createPostCalls (scrapeFeeds env s).calls,
        a.FeedID = b.FeedID ∧ a.Url = b.Url) := by
  have hcalls : createPostCalls (scrapeFeeds env s).calls =
      createPostCalls (scrapeFeedsLoop env f.ID feed.Channel.Link feed.Channel.Item
        (env.fetchFeed (env.MarkFeedFetched (env.GetNextFeedToFetch s).2 f.ID).2
          f.Url).2).calls := by
    exact scrapeFeeds_fetched_posts env s f feed hget hmark hfetch
  have hfields : ∀ (i : Nat) (arg : database.CreatePostParams),
      (createPostCalls (scrapeFeeds env s).calls)[i]? = some arg →
      ∃ item, feed.Channel.Item[i]? = some item ∧
        arg.Url = feed.Channel.Link ∧ arg.FeedID = f.ID ∧
        arg.Title = env.UnescapeString item.Title ∧
        arg.Description = env.UnescapeString item.Description := by
    intro i arg h
    rw [hcalls] at h
    obtain ⟨item, h1, h2, h3, h4, h5, _⟩ :=
      scrapeFeedsLoop_post_fields env f.ID feed.Channel.Link feed.Channel.Item _ i arg h
    exact ⟨item, h1, h2, h3, h4, h5⟩
  refine ⟨hfields, ?_⟩
  intro a ha b hb
  obtain ⟨i, hi⟩ := List.getElem?_of_mem ha
  obtain ⟨j, hj⟩ := List.getElem?_of_mem hb
  obtain ⟨_, _, ha2, ha3, _⟩ := hfields i a hi
  obtain ⟨_, _, hb2, hb3, _⟩ := hfields j b hj
  exact ⟨by rw [ha3, hb3], by rw [ha2, hb2]⟩

/-- Witness of C7: both posts attempted for `docTwo` carry the channel link
`https://ex.com`, not the links of the items. -/
theorem scrapeFeeds_post_url_is_channel_link_witness :
    (createPostCalls (scrapeFeeds (exampleEnv webTwo) store0).calls).map (fun p => p.Url) =
      ["https://ex.com", "https://ex.com"] ∧
    ∀ a ∈ createPostCalls (scrapeFeeds (exampleEnv webTwo) store0).calls,
      ∀ b ∈ createPostCalls (scrapeFeeds (exampleEnv webTwo) store0).calls,
        a.FeedID = b.FeedID ∧ a.Url = b.Url :=
  ⟨rfl, (scrapeFeeds_post_url_is_channel_link (exampleEnv webTwo) store0 feedF docTwo
    rfl rfl rfl).2⟩

/-- C2 (unique conflict), the code at a failing input.  The storage
`storeSeen` already holds a post of the feed under the link of the document,
so `CreatePost` for the first entry is refused with the unique violation.
The test `errors.Is(err, errors.New(...))` does not recognise it: the cycle
returns the error "Failed to insert post: ...", the second entry is never
attempted, and no post is added. -/
theorem scrapeFeeds_unique_violation_is_cycle_error :
    (scrapeFeeds (exampleEnv webTwo) storeSeen).err =
      some (fmt.ErrorfW "Failed to insert post: " uniqueViolation) ∧
    (scrapeFeeds (exampleEnv webTwo) storeSeen).err.map GoError.Error =
      some "Failed to insert post: pq: duplicate key value violates unique constraint" ∧
    (createPostCalls (scrapeFeeds (exampleEnv webTwo) storeSeen).calls).map (fun p => p.Title) =
      ["First"] ∧
    (scrapeFeeds (exampleEnv webTwo) storeSeen).state.posts = storeSeen.posts :=
  ⟨rfl, rfl, rfl, rfl⟩

/-- C4 as stated fails: the second entry of `docTwo` has the date
"not-a-date", which `time.Parse` rejects, and after one cycle on `store0` its
post is not stored, only that of the first entry is, and the cycle has
returned an error. -/
theorem scrapeFeeds_unreadable_date_entry_not_stored :
    time.Parse layout "not-a-date" = none ∧
    docTwo.Channel.Item.map (fun i => i.PubDate) = ["2024-01-01T00:00:00Z", "not-a-date"] ∧
    (scrapeFeeds (exampleEnv webTwo) store0).state.posts.map (fun p => p.Title) = ["First"] ∧
    (scrapeFeeds (exampleEnv webTwo) store0).err =
      some (fmt.ErrorfW "Failed to insert post: " uniqueViolation) ∧
    ¬ ∃ p ∈ (scrapeFeeds (exampleEnv webTwo) store0).state.posts, p.Title = "Second" :=
  ⟨rfl, rfl, rfl, rfl, by decide⟩

/-- C4 as amended (date tolerance).  `convertToNullTime` is a total function;
it returns the absent value for the empty string and for every string
`time.Parse` rejects under the layout, and the parsed time with `Valid = true`
for every other string, so `Valid` holds exactly when the string is read under
the layout; on the model of `time.Parse`, "2024-01-01T00:00:00Z" is set and
"not-a-date" is absent.  In a cycle, an entry with an unreadable `pubDate`
that the loop reaches, `CreatePost` having succeeded for every entry before
it, gets its `CreatePost` call with `PublishedAt` absent and its own unescaped
title and description; when `CreatePost` accepts it the cycle goes on with the
remaining entries.  When the storage accepts every post, the cycle returns nil
after one `CreatePost` call per entry, whatever the dates. -/
theorem convertToNullTime_date_tolerance :
    (∀ p : String → String → Option time.Time,
      convertToNullTime p "" = { Time := time.Time.zero, Valid := false }) ∧
    (∀ (p : String → String → Option time.Time) (d : String), p layout d = none →
      convertToNullTime p d = { Time := time.Time.zero, Valid := false }) ∧
    (∀ (p : String → String → Option time.Time) (d : String) (t : time.Time), d ≠ "" →
      p layout d = some t → convertToNullTime p d = { Time := t, Valid := true }) ∧
    (∀ (p : String → String → Option time.Time) (d : String),
      (convertToNullTime p d).Valid = true ↔ d ≠ "" ∧ ∃ t, p layout d = some t) ∧
    (∀ d : String,
      (convertToNullTime time.Parse d).Valid = true ↔ ∃ t, time.Parse layout d = some t) ∧
    convertToNullTime time.Parse "2024-01-01T00:00:00Z" =
      { Time := ⟨1704067200, 0⟩, Valid := true } ∧
    convertToNullTime time.Parse "not-a-date" = { Time := time.Time.zero, Valid := false } ∧
    (∀ (σ : Type) (env : Env σ) (s : σ) (f : database.Feed) (feed : RSSFeed)
      (pre post : List RSSItem) (item : RSSItem),
      (env.GetNextFeedToFetch s).1 = .ok f →
      (env.MarkFeedFetched (env.GetNextFeedToFetch s).2 f.ID).1 = none →
      (env.fetchFeed (env.MarkFeedFetched (env.GetNextFeedToFetch s).2 f.ID).2
        f.Url).1 = .ok feed →
      feed.Channel.Item = pre ++ item :: post →
      (∀ r ∈ postResults env f.ID feed.Channel.Link pre
        (env.fetchFeed (env.MarkFeedFetched (env.GetNextFeedToFetch s).2 f.ID).2 f.Url).2,
        r = none) →
      env.timeParse layout item.PubDate = none →
      ∃ arg, arg = createPostArgs env f.ID feed.Channel.Link item
          (afterPosts env f.ID feed.Channel.Link pre
            (env.fetchFeed (env.MarkFeedFetched (env.GetNextFeedToFetch s).2 f.ID).2
              f.Url).2) ∧
        (createPostCalls (scrapeFeeds env s).calls)[pre.length]? = some arg ∧
        arg.PublishedAt = { Time := time.Time.zero, Valid := false } ∧
        arg.Title = env.UnescapeString item.Title ∧
        arg.Description = env.UnescapeString item.Description ∧
        ((env.CreatePost
            (beforeCreatePost env (afterPosts env f.ID feed.Channel.Link pre
              (env.fetchFeed (env.MarkFeedFetched (env.GetNextFeedToFetch s).2 f.ID).2
                f.Url).2)) arg).1 = none →
          (scrapeFeeds env s).err =
            (scrapeFeedsLoop env f.ID feed.Channel.Link post
              (env.CreatePost
                (beforeCreatePost env (afterPosts env f.ID feed.Channel.Link pre
                  (env.fetchFeed (env.MarkFeedFetched (env.GetNextFeedToFetch s).2 f.ID).2
                    f.Url).2)) arg).2).err)) ∧
    (∀ (σ : Type) (env : Env σ) (s : σ) (f : database.Feed) (feed : RSSFeed),
      (env.GetNextFeedToFetch s).1 = .ok f →
      (env.MarkFeedFetched (env.GetNextFeedToFetch s).2 f.ID).1 = none →
      (env.fetchFeed (env.MarkFeedFetched (env.GetNextFeedToFetch s).2 f.ID).2
        f.Url).1 = .ok feed →
      (∀ r ∈ postResults env f.ID feed.Channel.Link feed.Channel.Item
        (env.fetchFeed (env.MarkFeedFetched (env.GetNextFeedToFetch s).2 f.ID).2 f.Url).2,
        r = none) →
      (scrapeFeeds env s).err = none ∧
      (createPostCalls (scrapeFeeds env s).calls).length = feed.Channel.Item.length ∧
      ∀ (i : Nat) (arg : database.CreatePostParams),
        (createPostCalls (scrapeFeeds env s).calls)[i]? = some arg →
        ∃ item, feed.Channel.Item[i]? = some item ∧
          arg.PublishedAt = convertToNullTime env.timeParse item.PubDate) := by
  refine ⟨fun p => by simp [convertToNullTime], convertToNullTime_of_none,
    convertToNullTime_of_some, convertToNullTime_valid_iff, ?_, rfl, rfl, ?_, ?_⟩
  · intro d
    rw [convertToNullTime_valid_iff]
    constructor
    · exact fun h => h.2
    · intro h
      refine ⟨?_, h⟩
      rintro rfl
      obtain ⟨t, ht⟩ := h
      have h0 : time.Parse layout "" = none := by decide
      rw [h0] at ht
      exact Option.noConfusion ht
  · intro σ env s f feed pre post item hget hmark hfetch hitems hpre hdate
    have hloop := scrapeFeedsLoop_append env f.ID feed.Channel.Link pre (item :: post) _ hpre
    obtain ⟨tail, htail⟩ := scrapeFeedsLoop_cons_calls env f.ID feed.Channel.Link item post
      (afterPosts env f.ID feed.Channel.Link pre
        (env.fetchFeed (env.MarkFeedFetched (env.GetNextFeedToFetch s).2 f.ID).2 f.Url).2)
    refine ⟨_, rfl, ?_, convertToNullTime_of_none _ _ hdate, rfl, rfl, ?_⟩
    · rw [scrapeFeeds_fetched_posts env s f feed hget hmark hfetch, hitems, hloop.2.2, htail,
        createPostCalls_append, createPostCalls_map, createPostCalls_cons_post,
        List.getElem?_append_right (by rw [postArgs_length])]
      simp [postArgs_length]
    · intro hc
      rw [scrapeFeeds_fetched env s f feed hget hmark hfetch, hitems]
      simp only
      rw [hloop.1, scrapeFeedsLoop_cons_none env f.ID feed.Channel.Link item post _ hc]
  · intro σ env s f feed hget hmark hfetch hall
    have hloop := scrapeFeedsLoop_append env f.ID feed.Channel.Link feed.Channel.Item [] _ hall
    rw [List.append_nil] at hloop
    refine ⟨?_, ?_, ?_⟩
    · rw [scrapeFeeds_fetched env s f feed hget hmark hfetch]
      exact hloop.1
    · rw [scrapeFeeds_fetched_posts env s f feed hget hmark hfetch, hloop.2.2]
      simp [createPostCalls_append, createPostCalls_map, createPostCalls, postArgs_length,
        scrapeFeedsLoop]
    · intro i arg h
      rw [scrapeFeeds_fetched_posts env s f feed hget hmark hfetch] at h
      obtain ⟨item, h1, _, _, _, _, h6⟩ :=
        scrapeFeedsLoop_post_fields env f.ID feed.Channel.Link feed.Channel.Item _ i arg h
      exact ⟨item, h1, h6⟩

/-- Witness of the amended C4.  In `docTwo` the entry dated "not-a-date" comes
second; the loop reaches it and calls `CreatePost` for it with an absent
`PublishedAt`.  On a storage that accepts every post the cycle returns nil and
both posts are stored, the second without a date. -/
theorem convertToNullTime_date_tolerance_witness :
    (∃ arg, (createPostCalls (scrapeFeeds (exampleEnv webTwo) store0).calls)[1]? = some arg ∧
      arg.PublishedAt = { Time := time.Time.zero, Valid := false } ∧
      arg.Title = "Second" ∧ arg.Description = "two") ∧
    ((scrapeFeeds envNoUnique store0).err = none ∧
      (createPostCalls (scrapeFeeds envNoUnique store0).calls).length = 2) ∧
    (scrapeFeeds envNoUnique store0).state.posts.map (fun p => (p.Title, p.PublishedAt.Valid)) =
      [("First", true), ("Second", false)] :=
  ⟨(convertToNullTime_date_tolerance.2.2.2.2.2.2.2.1 Store (exampleEnv webTwo) store0 feedF
      docTwo [docTwo.Channel.Item.get ⟨0, by decide⟩] []
      (docTwo.Channel.Item.get ⟨1, by decide⟩) rfl rfl rfl rfl
      (fun r hr => List.mem_singleton.mp hr) rfl).elim
      (fun arg h => ⟨arg, h.2.1, h.2.2.1, h.2.2.2.1, h.2.2.2.2.1⟩),
    ⟨(convertToNullTime_date_tolerance.2.2.2.2.2.2.2.2 Store envNoUnique store0 feedF
        docTwo rfl rfl rfl
        (fun r hr => by
          rcases List.mem_cons.mp hr with h | h
          · exact h
          · exact List.mem_singleton.mp h)).1,
      (convertToNullTime_date_tolerance.2.2.2.2.2.2.2.2 Store envNoUnique store0 feedF
        docTwo rfl rfl rfl
        (fun r hr => by
          rcases List.mem_cons.mp hr with h | h
          · exact h
          · exact List.mem_singleton.mp h)).2.1⟩,
    rfl⟩

/-- C8 as stated fails: "0s" and "-5s" parse as durations that are not
positive, and `handlerAgg` does not return an error for them; it panics. -/
theorem handlerAgg_nonpositive_not_returned :
    time.ParseDuration exactFraction "0s" = .ok 0 ∧
    time.ParseDuration exactFraction "-5s" = .ok (-5000000000) ∧
    handlerAgg (exampleEnv webTwo) 0 store0 { name := "agg", args := ["0s"] } =
      .panicked "non-positive interval for NewTicker" store0 [] ∧
    handlerAgg (exampleEnv webTwo) 0 store0 { name := "agg", args := ["-5s"] } =
      .panicked "non-positive interval for NewTicker" store0 [] ∧
    ¬ ∃ err st calls, handlerAgg (exampleEnv webTwo) 0 store0 { name := "agg", args := ["0s"] } =
      .returned err st calls := by
  refine ⟨rfl, rfl, rfl, rfl, ?_⟩
  rintro ⟨err, st, calls, h⟩
  have h0 : handlerAgg (exampleEnv webTwo) 0 store0 { name := "agg", args := ["0s"] } =
      .panicked "non-positive interval for NewTicker" store0 [] := rfl
  rw [h0] at h
  exact Outcome.noConfusion h

/-- C8 as amended.  For every argument that parses as a duration `d ≤ 0`,
`handlerAgg` does not return: `time.NewTicker` panics on it before the
polling loop starts, so no ticker exists, no cycle is run and no outside call
is made; `main` dies of the panic. -/
theorem handlerAgg_nonpositive_panics {σ : Type} (env : Env σ) (h : Handlers σ)
    (ticks : Nat) (s : σ) (cmd : command) (arg0 : String) (rest : List String) (d : Int)
    (hargs : cmd.args = arg0 :: rest) (hparse : env.ParseDuration arg0 = .ok d)
    (hd : d ≤ 0) :
    handlerAgg env ticks s cmd = .panicked "non-positive interval for NewTicker" s [] ∧
    ∀ prog, main env h none none (prog :: "agg" :: cmd.args) ticks s =
      .crashed "non-positive interval for NewTicker" s [] := by
  have hagg : ∀ c : command, c.args = arg0 :: rest →
      handlerAgg env ticks s c = .panicked "non-positive interval for NewTicker" s [] := by
    intro c hc
    simp only [handlerAgg, hc, hparse, if_pos hd]
  refine ⟨hagg cmd hargs, fun prog => ?_⟩
  have hrun : (curCommands env h ticks).run s { name := "agg", args := cmd.args } =
      handlerAgg env ticks s { name := "agg", args := cmd.args } := by
    simp [curCommands, commands.register, commands.run, List.find?]
  simp only [main, hrun, hagg { name := "agg", args := cmd.args } hargs]

/-- Witness of the amended C8: `agg -5s`. -/
theorem handlerAgg_nonpositive_panics_witness :
    handlerAgg (exampleEnv webTwo) 3 store0 { name := "agg", args := ["-5s"] } =
      .panicked "non-positive interval for NewTicker" store0 [] ∧
    ∀ prog, main (exampleEnv webTwo) idleHandlers none none
        (prog :: "agg" :: (command.mk "agg" ["-5s"]).args) 3 store0 =
      .crashed "non-positive interval for NewTicker" store0 [] :=
  handlerAgg_nonpositive_panics (exampleEnv webTwo) idleHandlers 3 store0
    { name := "agg", args := ["-5s"] } "-5s" [] (-5000000000) rfl rfl (by decide)

/-- C9 (cycle-failure resilience).  With an interval that parses as a positive
duration, `handlerAgg` is inside its loop after any number of ticks: it has
neither returned nor panicked.  After `ticks` ticks it has run exactly
`ticks + 1` cycles, the first at once and one per tick; cycle `i` starts in
the world cycle `i - 1` left, and the errors the cycles returned have no
influence on that. -/
theorem handlerAgg_loop_survives_cycle_errors {σ : Type} (env : Env σ) (ticks : Nat) (s : σ)
    (cmd : command) (arg0 : String) (rest : List String) (d : Int)
    (hargs : cmd.args = arg0 :: rest) (hparse : env.ParseDuration arg0 = .ok d)
    (hd : 0 < d) :
    ∃ p, handlerAgg env ticks s cmd = .looping p ∧
      p.results.length = ticks + 1 ∧
      p.state = afterCycles env (ticks + 1) s ∧
      p.results =
        (List.range (ticks + 1)).map (fun i => (scrapeFeeds env (afterCycles env i s)).err) ∧
      p.calls =
        ((List.range (ticks + 1)).map
          (fun i => (scrapeFeeds env (afterCycles env i s)).calls)).flatten := by
  refine ⟨pollingLoop env ticks s, ?_, ?_, (pollingLoop_eq env ticks s).1,
    (pollingLoop_eq env ticks s).2.1, (pollingLoop_eq env ticks s).2.2⟩
  · simp only [handlerAgg, hargs, hparse, if_neg (not_le.mpr hd)]
  · rw [(pollingLoop_eq env ticks s).2.1]
    simp

/-- Witness of C9: `agg 1m` on an empty feed catalog; after two ticks three
cycles have failed and the loop is still running. -/
theorem handlerAgg_loop_survives_cycle_errors_witness :
    ∃ p, handlerAgg (exampleEnv webDown) 2 storeEmpty { name := "agg", args := ["1m"] } =
        .looping p ∧
      p.results.length = 2 + 1 ∧
      p.state = afterCycles (exampleEnv webDown) (2 + 1) storeEmpty ∧
      p.results =
        (List.range (2 + 1)).map
          (fun i => (scrapeFeeds (exampleEnv webDown)
            (afterCycles (exampleEnv webDown) i storeEmpty)).err) ∧
      p.calls =
        ((List.range (2 + 1)).map
          (fun i => (scrapeFeeds (exampleEnv webDown)
            (afterCycles (exampleEnv webDown) i storeEmpty)).calls)).flatten :=
  handlerAgg_loop_survives_cycle_errors (exampleEnv webDown) 2 storeEmpty
    { name := "agg", args := ["1m"] } "1m" [] 60000000000 rfl rfl (by decide)

/-- C10 (malformed interval).  When the argument list is empty or its first
argument is rejected by `time.ParseDuration`, `handlerAgg` returns an error
that is not nil, in the world it was called in and without any outside call:
no cycle is run.  `main` turns it into exit status 1. -/
theorem handlerAgg_malformed_interval {σ : Type} (env : Env σ) (h : Handlers σ)
    (ticks : Nat) (s : σ) (args : List String)
    (hbad : args = [] ∨ ∃ a rest e, args = a :: rest ∧ env.ParseDuration a = .error e) :
    (∀ name, ∃ err, handlerAgg env ticks s { name := name, args := args } =
      .returned (some err) s []) ∧
    ∀ prog, main env h none none (prog :: "agg" :: args) ticks s = .exited 1 s [] := by
  have hagg : ∀ name, ∃ err, handlerAgg env ticks s { name := name, args := args } =
      .returned (some err) s [] := by
    intro name
    rcases hbad with h0 | ⟨a, rest, e, h1, h2⟩
    · exact ⟨errors.New [] "Missing time span between fetches, Proper usage: agg <time span>",
        by simp only [handlerAgg, h0]⟩
    · exact ⟨errors.New [e] ("Unknown duration format: " ++ e.Error),
        by simp only [handlerAgg, h1, h2]⟩
  refine ⟨hagg, fun prog => ?_⟩
  have hrun : (curCommands env h ticks).run s { name := "agg", args := args } =
      handlerAgg env ticks s { name := "agg", args := args } := by
    simp [curCommands, commands.register, commands.run, List.find?]
  obtain ⟨err, herr⟩ := hagg "agg"
  simp only [main, hrun, herr]

/-- Witness of C10: `agg soon`. -/
theorem handlerAgg_malformed_interval_witness :
    (∀ name, ∃ err, handlerAgg (exampleEnv webTwo) 3 store0 { name := name, args := ["soon"] } =
      .returned (some err) store0 []) ∧
    ∀ prog, main (exampleEnv webTwo) idleHandlers none none (prog :: "agg" :: ["soon"]) 3 store0 =
      .exited 1 store0 [] :=
  handlerAgg_malformed_interval (exampleEnv webTwo) idleHandlers 3 store0 ["soon"]
    (Or.inr ⟨"soon", [], time.invalidDuration "soon", rfl, rfl⟩)

/-- C5 (fairness).  Let the storage select the feed with the oldest
`last_fetched_at` (nulls first, ties by identity) and let `MarkFeedFetched`
set the `last_fetched_at` of the given feed (`OldestFirst`), and let the
catalog hold `n + 1` feeds with distinct identities, none of them fetched
yet.  Then the first `n + 1` consecutive cycles select each feed of the
catalog exactly once: the identities they select have no repetition and are
a permutation of the identities of the catalog.  Nothing is assumed about
what `fetchFeed` and `CreatePost` return. -/
theorem scrapeFeeds_fairness {σ : Type} (env : Env σ) (feedsOf : σ → List database.Feed)
    (hport : OldestFirst env feedsOf) (s : σ) (n : Nat)
    (hcount : (feedsOf s).length = n + 1)
    (hids : ((feedsOf s).map (fun f => f.ID)).Nodup)
    (hnever : ∀ f ∈ feedsOf s, f.LastFetchedAt.Valid = false) :
    (selectedFeeds (pollingLoop env n s).calls).length = n + 1 ∧
    (selectedFeeds (pollingLoop env n s).calls).Nodup ∧
    (selectedFeeds (pollingLoop env n s).calls).Perm ((feedsOf s).map (fun f => f.ID)) ∧
    (pollingLoop env n s).calls =
      ((List.range (n + 1)).map
        (fun i => (scrapeFeeds env (afterCycles env i s)).calls)).flatten := by
  have hall := neverFetched_eq_self (feedsOf s) hnever
  obtain ⟨h1, h2, h3⟩ := pollingLoop_selects_neverFetched env feedsOf hport n s hids
    (by rw [hall, hcount])
  refine ⟨h1, h2, ?_, (pollingLoop_eq env n s).2.2⟩
  apply List.Subperm.perm_of_length_le
  · apply List.subperm_of_subset h2
    intro id hid
    obtain ⟨g, hg, hgid⟩ := h3 id hid
    rw [hall] at hg
    exact List.mem_map.mpr ⟨g, hg, hgid⟩
  · rw [List.length_map, hcount, h1]

/-- Witness of C5: three unfetched feeds 9, 4 and 7 on a network whose first
fetch fails; the first three cycles select 4, 7 and 9. -/
theorem scrapeFeeds_fairness_witness :
    ((selectedFeeds (pollingLoop (exampleEnv webFlaky) 2 storeThree).calls).length = 2 + 1 ∧
      (selectedFeeds (pollingLoop (exampleEnv webFlaky) 2 storeThree).calls).Nodup ∧
      (selectedFeeds (pollingLoop (exampleEnv webFlaky) 2 storeThree).calls).Perm
        (storeThree.feeds.map (fun f => f.ID)) ∧
      (pollingLoop (exampleEnv webFlaky) 2 storeThree).calls =
        ((List.range (2 + 1)).map
          (fun i => (scrapeFeeds (exampleEnv webFlaky)
            (afterCycles (exampleEnv webFlaky) i storeThree)).calls)).flatten) ∧
    selectedFeeds (pollingLoop (exampleEnv webFlaky) 2 storeThree).calls = [4, 7, 9] :=
  ⟨scrapeFeeds_fairness (exampleEnv webFlaky) Store.feeds
      (specEnv_oldestFirst plainText exactFraction webFlaky)
      storeThree 2 rfl (by decide) (by decide),
    by decide⟩

end Gator
